import Mathlib

/-!
# Verification of the infraconfig pipeline

Shallow embedding of the component-discovery + normalization + validation +
extraction pipeline of the `infraconfig` repository
(`src/normalize-deployment.ts`, `src/bin/validate-config.ts`,
`src/bin/extract-config.ts`), together with proofs settling the claims of the
specification against the embedded code.

Modelling conventions:
* A `DeploymentRecord` is a JavaScript object with an open-ended field bag;
  we model it as a total function `String → Option JValue`, where `none`
  stands for a JavaScript `undefined` (absent) field.
* JavaScript `null` is a present-but-null field, modelled by `JValue.null`.
* JavaScript truthiness tests (`if (x)`, `!x`, `a && b`, `a || b` on field
  values) are modelled by the `truthy` function below.
* The object values occurring in deployment records are, per the data model,
  flat string→string mappings; they are modelled as association lists.
-/

/-- A JSON-like value stored in a deployment-record field.  Per the data
model, a field holds a string, a number, a boolean, `null`, or a nested flat
string→string mapping (modelled as an association list in insertion order). -/
inductive JValue where
  | str (s : String)
  | num (n : Int)
  | bool (b : Bool)
  | null
  | obj (fields : List (String × String))
deriving DecidableEq

/-- A deployment record: an open-ended field bag.  `none` models a
JavaScript `undefined` (absent) field. -/
def DeploymentConfig : Type := String → Option JValue

/-- JavaScript truthiness of a field access on a deployment record:
`undefined`, `null`, `false`, `0` and `""` are falsy; objects are truthy. -/
def truthy : Option JValue → Bool
  | none => false
  | some .null => false
  | some (.bool b) => b
  | some (.num n) => n != 0
  | some (.str s) => s != ""
  | some (.obj _) => true

/-- One alias-copy step of the normalizer: mirrors
`if (normalized[legacy] !== undefined && normalized[canonical] === undefined)
 normalized[canonical] = normalized[legacy];`
(`src/normalize-deployment.ts`). -/
def applyAlias (legacy canonical : String) (d : DeploymentConfig) : DeploymentConfig :=
  if (d legacy).isSome && (d canonical).isNone then
    fun k => if k = canonical then d legacy else d k
  else d

/-- `normalizeDeploymentConfig` (`src/normalize-deployment.ts`, lines 3–26):
copies each legacy alias into its canonical slot when the canonical slot is
undefined, in source order (DB aliases first, then Git aliases). -/
def normalizeDeploymentConfig (deployment : DeploymentConfig) : DeploymentConfig :=
  applyAlias "commit" "githubCommit"
    (applyAlias "branch" "githubBranch"
      (applyAlias "repo" "githubRepo"
        (applyAlias "dbNetworkKey" "sharedDatabaseDeploymentKey"
          (applyAlias "dbLocalUrl" "localDatabaseUrl" deployment))))

/-- The fixed (legacy, canonical) alias table of the normalizer. -/
def aliasTable : List (String × String) :=
  [("dbLocalUrl", "localDatabaseUrl"),
   ("dbNetworkKey", "sharedDatabaseDeploymentKey"),
   ("repo", "githubRepo"),
   ("branch", "githubBranch"),
   ("commit", "githubCommit")]

/-- The five canonical field names the normalizer can synthesize. -/
def canonicalKeys : List String :=
  ["localDatabaseUrl", "sharedDatabaseDeploymentKey", "githubRepo",
   "githubBranch", "githubCommit"]

theorem applyAlias_ne (legacy canonical : String) (d : DeploymentConfig)
    (k : String) (h : k ≠ canonical) : applyAlias legacy canonical d k = d k := by
  unfold applyAlias
  split
  · simp [h]
  · rfl

theorem applyAlias_self (legacy canonical : String) (d : DeploymentConfig) :
    applyAlias legacy canonical d canonical =
      if (d legacy).isSome && (d canonical).isNone then d legacy
      else d canonical := by
  unfold applyAlias
  split
  · simp
  · rfl

/-- Characterization of the normalizer at each canonical key. -/
theorem normalize_canonical (d : DeploymentConfig) (p : String × String)
    (hp : p ∈ aliasTable) :
    normalizeDeploymentConfig d p.2 =
      if (d p.1).isSome && (d p.2).isNone then d p.1 else d p.2 := by
  have hTable : p = ("dbLocalUrl", "localDatabaseUrl") ∨
      p = ("dbNetworkKey", "sharedDatabaseDeploymentKey") ∨
      p = ("repo", "githubRepo") ∨ p = ("branch", "githubBranch") ∨
      p = ("commit", "githubCommit") := by
    simpa [aliasTable] using hp
  rcases hTable with h | h | h | h | h <;> subst h <;>
    simp only [normalizeDeploymentConfig]
  · rw [applyAlias_ne _ _ _ _ (by decide), applyAlias_ne _ _ _ _ (by decide),
      applyAlias_ne _ _ _ _ (by decide), applyAlias_ne _ _ _ _ (by decide),
      applyAlias_self]
  · rw [applyAlias_ne _ _ _ _ (by decide), applyAlias_ne _ _ _ _ (by decide),
      applyAlias_ne _ _ _ _ (by decide), applyAlias_self,
      applyAlias_ne _ _ _ _ (by decide), applyAlias_ne _ _ _ _ (by decide)]
  · rw [applyAlias_ne _ _ _ _ (by decide), applyAlias_ne _ _ _ _ (by decide),
      applyAlias_self, applyAlias_ne _ _ _ _ (by decide),
      applyAlias_ne _ _ _ _ (by decide), applyAlias_ne _ _ _ _ (by decide),
      applyAlias_ne _ _ _ _ (by decide)]
  · rw [applyAlias_ne _ _ _ _ (by decide), applyAlias_self,
      applyAlias_ne _ _ _ _ (by decide), applyAlias_ne _ _ _ _ (by decide),
      applyAlias_ne _ _ _ _ (by decide), applyAlias_ne _ _ _ _ (by decide),
      applyAlias_ne _ _ _ _ (by decide), applyAlias_ne _ _ _ _ (by decide)]
  · rw [applyAlias_self, applyAlias_ne _ _ _ _ (by decide),
      applyAlias_ne _ _ _ _ (by decide), applyAlias_ne _ _ _ _ (by decide),
      applyAlias_ne _ _ _ _ (by decide), applyAlias_ne _ _ _ _ (by decide),
      applyAlias_ne _ _ _ _ (by decide), applyAlias_ne _ _ _ _ (by decide),
      applyAlias_ne _ _ _ _ (by decide)]

/-- The normalizer leaves every non-canonical key untouched. -/
theorem normalize_other (d : DeploymentConfig) (k : String)
    (h : k ∉ canonicalKeys) : normalizeDeploymentConfig d k = d k := by
  have h1 : k ≠ "localDatabaseUrl" := by intro hk; exact h (by simp [canonicalKeys, hk])
  have h2 : k ≠ "sharedDatabaseDeploymentKey" := by intro hk; exact h (by simp [canonicalKeys, hk])
  have h3 : k ≠ "githubRepo" := by intro hk; exact h (by simp [canonicalKeys, hk])
  have h4 : k ≠ "githubBranch" := by intro hk; exact h (by simp [canonicalKeys, hk])
  have h5 : k ≠ "githubCommit" := by intro hk; exact h (by simp [canonicalKeys, hk])
  simp only [normalizeDeploymentConfig]
  rw [applyAlias_ne _ _ _ _ h5, applyAlias_ne _ _ _ _ h4, applyAlias_ne _ _ _ _ h3,
    applyAlias_ne _ _ _ _ h2, applyAlias_ne _ _ _ _ h1]

/-- C4: `normalizeDeploymentConfig` satisfies its contract: for every
(legacy, canonical) pair in the alias table, if the legacy field is defined
and the canonical field is undefined, the output canonical field equals the
legacy value; every defined key of the input is present in the output with
its value unchanged (in particular a defined canonical value always survives
unchanged, as does the legacy value); and the output holds no keys beyond
the input keys plus the synthesized canonical fields. -/
theorem C4_normalizer_contract (d : DeploymentConfig) :
    (∀ p ∈ aliasTable, (d p.1).isSome → d p.2 = none →
      normalizeDeploymentConfig d p.2 = d p.1) ∧
    (∀ k : String, (d k).isSome → normalizeDeploymentConfig d k = d k) ∧
    (∀ k : String, (normalizeDeploymentConfig d k).isSome →
      (d k).isSome ∨ k ∈ canonicalKeys) := by
  refine ⟨?_, ?_, ?_⟩
  · intro p hp hleg hcan
    rw [normalize_canonical d p hp]
    simp [hleg, hcan]
  · intro k hk
    by_cases hc : k ∈ canonicalKeys
    · have hTable : ∃ p ∈ aliasTable, p.2 = k := by
        simp only [canonicalKeys, List.mem_cons, List.not_mem_nil, or_false] at hc
        rcases hc with h | h | h | h | h <;> subst h <;> simp [aliasTable]
      obtain ⟨p, hp, hpk⟩ := hTable
      subst hpk
      rw [normalize_canonical d p hp]
      have : (d p.2).isNone = false := by
        cases hdv : d p.2 with
        | none => rw [hdv] at hk; simp at hk
        | some v => simp
      simp [this]
    · exact normalize_other d k hc
  · intro k hk
    by_cases hc : k ∈ canonicalKeys
    · exact Or.inr hc
    · left
      rw [normalize_other d k hc] at hk
      exact hk

/-- C4 witness: the contract evaluated on a concrete record with a legacy
`repo` field and no `githubRepo` field. -/
def c4Record : DeploymentConfig := fun k =>
  if k = "repo" then some (.str "org/example") else
  if k = "port" then some (.num 4001) else none

theorem C4_witness :
    normalizeDeploymentConfig c4Record "githubRepo" = some (.str "org/example") :=
  (C4_normalizer_contract c4Record).1 ("repo", "githubRepo") (by decide)
    (by decide) (by decide)

/-- C5: the normalizer is idempotent. -/
theorem C5_normalizer_idempotent (d : DeploymentConfig) :
    normalizeDeploymentConfig (normalizeDeploymentConfig d) =
      normalizeDeploymentConfig d := by
  funext k
  by_cases hc : k ∈ canonicalKeys
  · have hTable : ∃ p ∈ aliasTable, p.2 = k := by
      simp only [canonicalKeys, List.mem_cons, List.not_mem_nil, or_false] at hc
      rcases hc with h | h | h | h | h <;> subst h <;> simp [aliasTable]
    obtain ⟨p, hp, hpk⟩ := hTable
    subst hpk
    have hleg_not : p.1 ∉ canonicalKeys := by
      have hTab : p ∈ aliasTable := hp
      simp only [aliasTable, List.mem_cons, List.not_mem_nil, or_false] at hTab
      rcases hTab with h | h | h | h | h <;> subst h <;> decide
    rw [normalize_canonical (normalizeDeploymentConfig d) p hp,
      normalize_other d p.1 hleg_not, normalize_canonical d p hp]
    cases hleg : d p.1 with
    | none => simp
    | some v =>
      cases hcan : d p.2 with
      | none => simp
      | some w => simp
  · rw [normalize_other (normalizeDeploymentConfig d) k hc, normalize_other d k hc]

/-- Issue severity of the validator (`validate-config.ts`, line 14). -/
inductive Severity where
  | error | warning | info
deriving DecidableEq

/-- A validation issue (`validate-config.ts`, lines 13–17). -/
structure ValidationIssue where
  severity : Severity
  path : String
  message : String
deriving DecidableEq

/-- A component of a system (`types.ts`): id, type tag (`"AGENT"` or
`"WEB"` in well-formed documents), optional endpoint, optional enabled flag
(absent modelled as `none`), and a deployment record. -/
structure Component where
  componentId : String
  componentType : String
  endpoint : Option String
  enabled : Option Bool
  deployment : DeploymentConfig

/-- A system: id, type tag and its ordered components (`types.ts`). -/
structure Sys where
  systemId : String
  systemType : String
  components : List Component

/-- A parsed configuration document (`types.ts`).  Only the fields the
pipeline reads are modelled. -/
structure InfraConfig where
  schemaVersion : Option String
  environment : Option String
  version : Option Int
  systems : List Sys

/-- The legacy-field table of the validator
(`validate-config.ts`, lines 110–116). -/
def legacyFields : List (String × String) :=
  [("dbLocalUrl", "localDatabaseUrl"),
   ("dbNetworkKey", "sharedDatabaseDeploymentKey"),
   ("repo", "githubRepo"),
   ("branch", "githubBranch"),
   ("commit", "githubCommit")]

/-- Legacy-field warnings (`validate-config.ts`, lines 118–126), checked on
the pre-normalization record. -/
def legacyFieldIssues (depPath : String) (dep : DeploymentConfig) : List ValidationIssue :=
  legacyFields.flatMap fun p =>
    if (dep p.1).isSome then
      [⟨.warning, depPath ++ "." ++ p.1,
        "Legacy field \x27" ++ p.1 ++ "\x27 is deprecated. Prefer \x27" ++ p.2 ++ "\x27."⟩]
    else []

/-- The deprecated-field table of the validator
(`validate-config.ts`, lines 131–146). -/
def deprecatedTable : List (String × String) :=
  [("postgresHost", "Use mariadbHost instead"),
   ("postgresPort", "Use mariadbPort instead"),
   ("postgresUser", "Use mariadbUser instead"),
   ("postgresPassword", "Use mariadbPassword instead"),
   ("postgresDb", "Use mariadbDatabase instead"),
   ("mysqlHost", "Use mariadbHost instead"),
   ("mysqlPort", "Use mariadbPort instead"),
   ("mysqlUser", "Use mariadbUser instead"),
   ("mysqlPassword", "Use mariadbPassword instead"),
   ("mysqlDatabase", "Use mariadbDatabase instead"),
   ("mariadbDb", "Use mariadbDatabase (full word) instead"),
   ("corsOrigins", "Use corsOrigin (singular) instead"),
   ("iamApiUrl", "Use infraIamBaseUrl instead"),
   ("apiUrl", "Use apiBaseUrl instead")]

/-- Deprecated-field warnings (`validate-config.ts`, lines 148–156), checked
on the pre-normalization record. -/
def deprecatedIssues (depPath : String) (dep : DeploymentConfig) : List ValidationIssue :=
  deprecatedTable.flatMap fun p =>
    if (dep p.1).isSome then
      [⟨.warning, depPath ++ "." ++ p.1, "Deprecated field. " ++ p.2⟩]
    else []

/-- `['LOCAL','SHARED','NONE'].includes(mode)` — strict-equality membership
of the raw field value (`validate-config.ts`, line 170). -/
def modeIncluded (v : Option JValue) : Bool :=
  v == some (.str "LOCAL") || v == some (.str "SHARED") || v == some (.str "NONE")

/-- The direct-connection tuple test of the SHARED rule
(`validate-config.ts`, lines 191–196): all four MariaDB connection fields
truthy. -/
def hasDirectMariadbConnection (nd : DeploymentConfig) : Bool :=
  truthy (nd "mariadbHost") && truthy (nd "mariadbPort") &&
    truthy (nd "mariadbUser") && truthy (nd "mariadbDatabase")

/-- The `databaseUsageMode` rules of the validator
(`validate-config.ts`, lines 170–217), applied to the normalized record,
guarded by a truthy `databaseUsageMode`. -/
def modeIssues (depPath : String) (nd : DeploymentConfig) : List ValidationIssue :=
  (if !modeIncluded (nd "databaseUsageMode") then
    [⟨.error, depPath ++ ".databaseUsageMode",
      "Invalid databaseUsageMode. Must be LOCAL, SHARED, or NONE"⟩]
  else []) ++
  (if nd "databaseUsageMode" = some (.str "LOCAL") then
    (if !truthy (nd "localDatabaseUrl") then
      [⟨.error, depPath ++ ".localDatabaseUrl",
        "localDatabaseUrl is required for LOCAL usage mode"⟩]
    else [])
  else []) ++
  (if nd "databaseUsageMode" = some (.str "SHARED") then
    (if !truthy (nd "sharedDatabaseDeploymentKey") && !hasDirectMariadbConnection nd then
      [⟨.error, depPath ++ ".sharedDatabaseDeploymentKey",
        "For SHARED usage mode, provide sharedDatabaseDeploymentKey OR provide direct MariaDB connection fields (mariadbHost/mariadbPort/mariadbUser/mariadbDatabase)"⟩]
    else [])
  else []) ++
  (if nd "databaseUsageMode" = some (.str "NONE") then
    (if truthy (nd "localDatabaseUrl") || truthy (nd "sharedDatabaseDeploymentKey") then
      [⟨.warning, depPath, "Database fields present but usage mode is NONE"⟩]
    else [])
  else [])

/-- The MariaDB field-completeness rule of the validator
(`validate-config.ts`, lines 221–258), guarded by any one of host/port/user
being truthy on the normalized record. -/
def mariadbIssues (depPath : String) (nd : DeploymentConfig) : List ValidationIssue :=
  (if !truthy (nd "mariadbHost") then
    [⟨.error, depPath ++ ".mariadbHost", "mariadbHost required when using MariaDB"⟩]
  else []) ++
  (if !truthy (nd "mariadbPort") then
    [⟨.error, depPath ++ ".mariadbPort", "mariadbPort required when using MariaDB"⟩]
  else []) ++
  (if !truthy (nd "mariadbUser") then
    [⟨.error, depPath ++ ".mariadbUser", "mariadbUser required when using MariaDB"⟩]
  else []) ++
  (if !truthy (nd "mariadbPassword") then
    [⟨.warning, depPath ++ ".mariadbPassword",
      "mariadbPassword not set (may be intentional for testing)"⟩]
  else []) ++
  (if !truthy (nd "mariadbDatabase") then
    [⟨.error, depPath ++ ".mariadbDatabase", "mariadbDatabase required when using MariaDB"⟩]
  else [])

/-- The AGENT-only rules of the validator
(`validate-config.ts`, lines 159–259): port requirement, the
`databaseUsageMode` rules and the MariaDB field-completeness rule, all on
the normalized record. -/
def agentIssues (depPath : String) (nd : DeploymentConfig) : List ValidationIssue :=
  (if !truthy (nd "port") then
    [⟨.error, depPath ++ ".port", "Missing required field: port"⟩]
  else []) ++
  (if truthy (nd "databaseUsageMode") then modeIssues depPath nd else []) ++
  (if truthy (nd "mariadbHost") || truthy (nd "mariadbPort") || truthy (nd "mariadbUser") then
    mariadbIssues depPath nd
  else [])

/-- The WEB-only rules of the validator (`validate-config.ts`, lines
262–277), on the raw record. -/
def webIssues (depPath : String) (dep : DeploymentConfig) : List ValidationIssue :=
  (if !truthy (dep "port") then
    [⟨.error, depPath ++ ".port", "Missing required field: port"⟩]
  else []) ++
  (if !truthy (dep "apiBaseUrl") then
    [⟨.warning, depPath ++ ".apiBaseUrl",
      "WEB components typically need apiBaseUrl to connect to AGENT"⟩]
  else [])

/-- The per-component body of `validate`
(`validate-config.ts`, lines 86–277): componentId presence, legacy and
deprecated warnings on the raw record, then AGENT rules on the normalized
record and WEB rules on the raw record.  The missing-deployment structural
branch (line 97) cannot fire in this model because the schema makes
`deployment` a required object. -/
def validateComponent (compPath : String) (component : Component) : List ValidationIssue :=
  let dep := component.deployment
  let depPath := compPath ++ ".deployment"
  let normalizedDep := normalizeDeploymentConfig dep
  (if component.componentId = "" then
    [⟨.error, compPath ++ ".componentId", "Missing componentId"⟩]
  else []) ++
  legacyFieldIssues depPath dep ++
  deprecatedIssues depPath dep ++
  (if component.componentType = "AGENT" then agentIssues depPath normalizedDep else []) ++
  (if component.componentType = "WEB" then webIssues depPath dep else [])

theorem mem_iteSingle {α : Type} {c : Prop} [Decidable c] {a x : α} :
    a ∈ (if c then [x] else ([] : List α)) ↔ c ∧ a = x := by
  split <;> simp_all

/-- The messages legacy-field warnings can carry. -/
def legacyMessages : List String :=
  legacyFields.map fun p =>
    "Legacy field \x27" ++ p.1 ++ "\x27 is deprecated. Prefer \x27" ++ p.2 ++ "\x27."

/-- The messages deprecated-field warnings can carry. -/
def deprecatedMessages : List String :=
  deprecatedTable.map fun p => "Deprecated field. " ++ p.2

theorem mem_legacyFieldIssues {i : ValidationIssue} {depPath : String}
    {dep : DeploymentConfig} (h : i ∈ legacyFieldIssues depPath dep) :
    i.severity = .warning ∧ i.message ∈ legacyMessages := by
  simp only [legacyFieldIssues, List.mem_flatMap] at h
  obtain ⟨p, hp, hi⟩ := h
  rw [mem_iteSingle] at hi
  rcases hi with ⟨_, rfl⟩
  exact ⟨rfl, by simp only [legacyMessages, List.mem_map]; exact ⟨p, hp, rfl⟩⟩

theorem mem_deprecatedIssues {i : ValidationIssue} {depPath : String}
    {dep : DeploymentConfig} (h : i ∈ deprecatedIssues depPath dep) :
    i.severity = .warning ∧ i.message ∈ deprecatedMessages := by
  simp only [deprecatedIssues, List.mem_flatMap] at h
  obtain ⟨p, hp, hi⟩ := h
  rw [mem_iteSingle] at hi
  rcases hi with ⟨_, rfl⟩
  exact ⟨rfl, by simp only [deprecatedMessages, List.mem_map]; exact ⟨p, hp, rfl⟩⟩

theorem mem_validateComponent_cases {i : ValidationIssue} {compPath : String}
    {c : Component} (h : i ∈ validateComponent compPath c) :
    i ∈ (if c.componentId = "" then
          [⟨.error, compPath ++ ".componentId", "Missing componentId"⟩]
        else ([] : List ValidationIssue)) ∨
    i ∈ legacyFieldIssues (compPath ++ ".deployment") c.deployment ∨
    i ∈ deprecatedIssues (compPath ++ ".deployment") c.deployment ∨
    i ∈ (if c.componentType = "AGENT" then
          agentIssues (compPath ++ ".deployment") (normalizeDeploymentConfig c.deployment)
        else []) ∨
    i ∈ (if c.componentType = "WEB" then
          webIssues (compPath ++ ".deployment") c.deployment
        else []) := by
  simpa [validateComponent, List.mem_append, or_assoc] using h

theorem mem_agentIssues_cases {i : ValidationIssue} {depPath : String}
    {nd : DeploymentConfig} (h : i ∈ agentIssues depPath nd) :
    (truthy (nd "port") = false ∧
      i = ⟨.error, depPath ++ ".port", "Missing required field: port"⟩) ∨
    (truthy (nd "databaseUsageMode") = true ∧ i ∈ modeIssues depPath nd) ∨
    ((truthy (nd "mariadbHost") || truthy (nd "mariadbPort") ||
        truthy (nd "mariadbUser")) = true ∧ i ∈ mariadbIssues depPath nd) := by
  simp only [agentIssues, List.mem_append] at h
  rcases h with (h | h) | h
  · rw [mem_iteSingle] at h
    exact Or.inl ⟨by simpa using h.1, h.2⟩
  · rcases Decidable.em (truthy (nd "databaseUsageMode") = true) with ht | ht
    · exact Or.inr (Or.inl ⟨ht, by simpa [ht] using h⟩)
    · simp [eq_false_of_ne_true ht] at h
  · rcases Decidable.em ((truthy (nd "mariadbHost") || truthy (nd "mariadbPort") ||
        truthy (nd "mariadbUser")) = true) with ht | ht
    · exact Or.inr (Or.inr ⟨ht, by simpa [ht] using h⟩)
    · simp [eq_false_of_ne_true ht] at h

theorem mem_modeIssues_cases {i : ValidationIssue} {depPath : String}
    {nd : DeploymentConfig} (h : i ∈ modeIssues depPath nd) :
    (modeIncluded (nd "databaseUsageMode") = false ∧
      i = ⟨.error, depPath ++ ".databaseUsageMode",
        "Invalid databaseUsageMode. Must be LOCAL, SHARED, or NONE"⟩) ∨
    (nd "databaseUsageMode" = some (.str "LOCAL") ∧
      truthy (nd "localDatabaseUrl") = false ∧
      i = ⟨.error, depPath ++ ".localDatabaseUrl",
        "localDatabaseUrl is required for LOCAL usage mode"⟩) ∨
    (nd "databaseUsageMode" = some (.str "SHARED") ∧
      truthy (nd "sharedDatabaseDeploymentKey") = false ∧
      hasDirectMariadbConnection nd = false ∧
      i = ⟨.error, depPath ++ ".sharedDatabaseDeploymentKey",
        "For SHARED usage mode, provide sharedDatabaseDeploymentKey OR provide direct MariaDB connection fields (mariadbHost/mariadbPort/mariadbUser/mariadbDatabase)"⟩) ∨
    (nd "databaseUsageMode" = some (.str "NONE") ∧
      (truthy (nd "localDatabaseUrl") || truthy (nd "sharedDatabaseDeploymentKey")) = true ∧
      i = ⟨.warning, depPath, "Database fields present but usage mode is NONE"⟩) := by
  simp only [modeIssues, List.mem_append] at h
  rcases h with ((h | h) | h) | h
  · rw [mem_iteSingle] at h
    exact Or.inl ⟨by simpa using h.1, h.2⟩
  · split at h
    · rw [mem_iteSingle] at h
      exact Or.inr (Or.inl ⟨by assumption, by simpa using h.1, h.2⟩)
    · simp at h
  · split at h
    · rw [mem_iteSingle] at h
      have hc := h.1
      rw [Bool.and_eq_true, Bool.not_eq_true', Bool.not_eq_true'] at hc
      exact Or.inr (Or.inr (Or.inl ⟨by assumption, hc.1, hc.2, h.2⟩))
    · simp at h
  · split at h
    · rw [mem_iteSingle] at h
      exact Or.inr (Or.inr (Or.inr ⟨by assumption, h.1, h.2⟩))
    · simp at h

theorem mem_mariadbIssues_cases {i : ValidationIssue} {depPath : String}
    {nd : DeploymentConfig} (h : i ∈ mariadbIssues depPath nd) :
    (truthy (nd "mariadbHost") = false ∧
      i = ⟨.error, depPath ++ ".mariadbHost", "mariadbHost required when using MariaDB"⟩) ∨
    (truthy (nd "mariadbPort") = false ∧
      i = ⟨.error, depPath ++ ".mariadbPort", "mariadbPort required when using MariaDB"⟩) ∨
    (truthy (nd "mariadbUser") = false ∧
      i = ⟨.error, depPath ++ ".mariadbUser", "mariadbUser required when using MariaDB"⟩) ∨
    (truthy (nd "mariadbPassword") = false ∧
      i = ⟨.warning, depPath ++ ".mariadbPassword",
        "mariadbPassword not set (may be intentional for testing)"⟩) ∨
    (truthy (nd "mariadbDatabase") = false ∧
      i = ⟨.error, depPath ++ ".mariadbDatabase", "mariadbDatabase required when using MariaDB"⟩) := by
  simp only [mariadbIssues, List.mem_append] at h
  rcases h with (((h | h) | h) | h) | h <;> rw [mem_iteSingle] at h
  · exact Or.inl ⟨by simpa using h.1, h.2⟩
  · exact Or.inr (Or.inl ⟨by simpa using h.1, h.2⟩)
  · exact Or.inr (Or.inr (Or.inl ⟨by simpa using h.1, h.2⟩))
  · exact Or.inr (Or.inr (Or.inr (Or.inl ⟨by simpa using h.1, h.2⟩)))
  · exact Or.inr (Or.inr (Or.inr (Or.inr ⟨by simpa using h.1, h.2⟩)))

theorem mem_webIssues_cases {i : ValidationIssue} {depPath : String}
    {dep : DeploymentConfig} (h : i ∈ webIssues depPath dep) :
    (truthy (dep "port") = false ∧
      i = ⟨.error, depPath ++ ".port", "Missing required field: port"⟩) ∨
    (truthy (dep "apiBaseUrl") = false ∧
      i = ⟨.warning, depPath ++ ".apiBaseUrl",
        "WEB components typically need apiBaseUrl to connect to AGENT"⟩) := by
  simp only [webIssues, List.mem_append] at h
  rcases h with h | h <;> rw [mem_iteSingle] at h
  · exact Or.inl ⟨by simpa using h.1, h.2⟩
  · exact Or.inr ⟨by simpa using h.1, h.2⟩

theorem agentIssues_sub {i : ValidationIssue} {compPath : String} {c : Component}
    (hA : c.componentType = "AGENT")
    (h : i ∈ agentIssues (compPath ++ ".deployment") (normalizeDeploymentConfig c.deployment)) :
    i ∈ validateComponent compPath c := by
  simp only [validateComponent, List.mem_append, hA]
  tauto

theorem modeIssues_sub {i : ValidationIssue} {depPath : String} {nd : DeploymentConfig}
    (hMode : truthy (nd "databaseUsageMode") = true)
    (h : i ∈ modeIssues depPath nd) : i ∈ agentIssues depPath nd := by
  simp only [agentIssues, List.mem_append, hMode, if_true]
  tauto

theorem mariadbIssues_sub {i : ValidationIssue} {depPath : String} {nd : DeploymentConfig}
    (hG : (truthy (nd "mariadbHost") || truthy (nd "mariadbPort") ||
        truthy (nd "mariadbUser")) = true)
    (h : i ∈ mariadbIssues depPath nd) : i ∈ agentIssues depPath nd := by
  simp only [agentIssues, List.mem_append, hG, if_true]
  tauto

/-- The SHARED-mode error message, which names both acceptable
alternatives. -/
def sharedModeMessage : String :=
  "For SHARED usage mode, provide sharedDatabaseDeploymentKey OR provide direct MariaDB connection fields (mariadbHost/mariadbPort/mariadbUser/mariadbDatabase)"

/-- The NONE-mode inconsistency message. -/
def noneModeMessage : String := "Database fields present but usage mode is NONE"

theorem msg_not_in_legacy {m : String} (hm : m ∉ legacyMessages)
    {i : ValidationIssue} {depPath : String} {dep : DeploymentConfig}
    (h : i ∈ legacyFieldIssues depPath dep) : i.message ≠ m :=
  fun heq => hm (heq ▸ (mem_legacyFieldIssues h).2)

theorem msg_not_in_deprecated {m : String} (hm : m ∉ deprecatedMessages)
    {i : ValidationIssue} {depPath : String} {dep : DeploymentConfig}
    (h : i ∈ deprecatedIssues depPath dep) : i.message ≠ m :=
  fun heq => hm (heq ▸ (mem_deprecatedIssues h).2)

/-- A WEB component declaring `databaseUsageMode: "LOCAL"` with no
`localDatabaseUrl`: the validator reports nothing at all for it. -/
def c1Record : DeploymentConfig := fun k =>
  if k = "databaseUsageMode" then some (.str "LOCAL") else
  if k = "port" then some (.num 80) else
  if k = "apiBaseUrl" then some (.str "http://agent") else none

def c1Web : Component :=
  ⟨"web-1", "WEB", none, none, c1Record⟩

/-- C1 counterexample: the claim says the mode rules apply to every
component regardless of componentType, so this WEB component — whose
normalized record declares mode LOCAL and lacks `localDatabaseUrl` — should
receive an error-severity issue; the code, which gates the database rules
under `componentType === 'AGENT'`, reports no issue at all for it. -/
theorem C1_counterexample :
    truthy (normalizeDeploymentConfig c1Web.deployment "databaseUsageMode") = true ∧
    normalizeDeploymentConfig c1Web.deployment "databaseUsageMode" = some (.str "LOCAL") ∧
    truthy (normalizeDeploymentConfig c1Web.deployment "localDatabaseUrl") = false ∧
    validateComponent "systems[0].components[0]" c1Web = [] := by
  refine ⟨by decide, by decide, by decide, by decide⟩

/-- C1 (amended): the `databaseUsageMode` rules hold as claimed — LOCAL
without a truthy `localDatabaseUrl` is an error; SHARED without the shared
key and without the complete direct-connection tuple is an error naming both
alternatives, and supplying either alternative suppresses that error; NONE
with a local URL or shared key is a warning and never an error; a declared
mode outside {LOCAL, SHARED, NONE} is an error — but only for components
whose componentType is AGENT (the code gates all of them under
`componentType === 'AGENT'`), not for every component. -/
theorem C1_amended (compPath : String) (c : Component)
    (hA : c.componentType = "AGENT")
    (hMode : truthy (normalizeDeploymentConfig c.deployment "databaseUsageMode") = true) :
    (normalizeDeploymentConfig c.deployment "databaseUsageMode" = some (.str "LOCAL") →
      truthy (normalizeDeploymentConfig c.deployment "localDatabaseUrl") = false →
      (⟨.error, compPath ++ ".deployment" ++ ".localDatabaseUrl",
        "localDatabaseUrl is required for LOCAL usage mode"⟩ : ValidationIssue) ∈
        validateComponent compPath c) ∧
    (normalizeDeploymentConfig c.deployment "databaseUsageMode" = some (.str "SHARED") →
      truthy (normalizeDeploymentConfig c.deployment "sharedDatabaseDeploymentKey") = false →
      hasDirectMariadbConnection (normalizeDeploymentConfig c.deployment) = false →
      (⟨.error, compPath ++ ".deployment" ++ ".sharedDatabaseDeploymentKey",
        sharedModeMessage⟩ : ValidationIssue) ∈ validateComponent compPath c) ∧
    (normalizeDeploymentConfig c.deployment "databaseUsageMode" = some (.str "SHARED") →
      (truthy (normalizeDeploymentConfig c.deployment "sharedDatabaseDeploymentKey") = true ∨
        hasDirectMariadbConnection (normalizeDeploymentConfig c.deployment) = true) →
      ∀ i ∈ validateComponent compPath c, i.message ≠ sharedModeMessage) ∧
    (normalizeDeploymentConfig c.deployment "databaseUsageMode" = some (.str "NONE") →
      (truthy (normalizeDeploymentConfig c.deployment "localDatabaseUrl") = true ∨
        truthy (normalizeDeploymentConfig c.deployment "sharedDatabaseDeploymentKey") = true) →
      (⟨.warning, compPath ++ ".deployment", noneModeMessage⟩ : ValidationIssue) ∈
        validateComponent compPath c ∧
      ∀ i ∈ validateComponent compPath c,
        i.message = noneModeMessage → i.severity = .warning) ∧
    (modeIncluded (normalizeDeploymentConfig c.deployment "databaseUsageMode") = false →
      (⟨.error, compPath ++ ".deployment" ++ ".databaseUsageMode",
        "Invalid databaseUsageMode. Must be LOCAL, SHARED, or NONE"⟩ : ValidationIssue) ∈
        validateComponent compPath c) := by
  set nd := normalizeDeploymentConfig c.deployment with hnd
  refine ⟨?_, ?_, ?_, ?_, ?_⟩
  · intro h1 h2
    refine agentIssues_sub hA (modeIssues_sub hMode ?_)
    simp [modeIssues, h1, h2, modeIncluded, ← hnd]
  · intro h1 h2 h3
    refine agentIssues_sub hA (modeIssues_sub hMode ?_)
    simp [modeIssues, h1, h2, h3, modeIncluded, sharedModeMessage, ← hnd]
  · intro h1 hOk i hi
    rcases mem_validateComponent_cases hi with h | h | h | h | h
    · rw [mem_iteSingle] at h
      rw [h.2]
      simp [sharedModeMessage]
    · exact msg_not_in_legacy (by decide) h
    · exact msg_not_in_deprecated (by decide) h
    · rw [hA, if_pos rfl, ← hnd] at h
      rcases mem_agentIssues_cases h with ⟨_, rfl⟩ | ⟨_, hm⟩ | ⟨_, hm⟩
      · simp [sharedModeMessage]
      · rcases mem_modeIssues_cases hm with ⟨_, rfl⟩ | ⟨_, _, rfl⟩ | ⟨_, hk, hd, rfl⟩ | ⟨_, _, rfl⟩
        · simp [sharedModeMessage]
        · simp [sharedModeMessage]
        · rcases hOk with hOk | hOk
          · rw [hOk] at hk; cases hk
          · rw [hOk] at hd; cases hd
        · simp [sharedModeMessage]
      · rcases mem_mariadbIssues_cases hm with
          ⟨_, rfl⟩ | ⟨_, rfl⟩ | ⟨_, rfl⟩ | ⟨_, rfl⟩ | ⟨_, rfl⟩ <;> simp [sharedModeMessage]
    · rw [hA] at h
      simp at h
  · intro h1 hDb
    constructor
    · refine agentIssues_sub hA (modeIssues_sub hMode ?_)
      have hDb' : (truthy (nd "localDatabaseUrl") ||
          truthy (nd "sharedDatabaseDeploymentKey")) = true := by
        rcases hDb with h | h <;> simp [h]
      simp [modeIssues, h1, hDb', noneModeMessage, ← hnd]
    · intro i hi hmsg
      rcases mem_validateComponent_cases hi with h | h | h | h | h
      · rw [mem_iteSingle] at h
        rw [h.2] at hmsg
        exact absurd hmsg (by simp [noneModeMessage])
      · exact (mem_legacyFieldIssues h).1
      · exact (mem_deprecatedIssues h).1
      · rw [hA, if_pos rfl, ← hnd] at h
        rcases mem_agentIssues_cases h with ⟨_, rfl⟩ | ⟨_, hm⟩ | ⟨_, hm⟩
        · exact absurd hmsg (by simp [noneModeMessage])
        · rcases mem_modeIssues_cases hm with
            ⟨_, rfl⟩ | ⟨_, _, rfl⟩ | ⟨_, _, _, rfl⟩ | ⟨_, _, rfl⟩
          · exact absurd hmsg (by simp [noneModeMessage])
          · exact absurd hmsg (by simp [noneModeMessage])
          · exact absurd hmsg (by simp [noneModeMessage])
          · rfl
        · rcases mem_mariadbIssues_cases hm with
            ⟨_, rfl⟩ | ⟨_, rfl⟩ | ⟨_, rfl⟩ | ⟨_, rfl⟩ | ⟨_, rfl⟩
          · exact absurd hmsg (by simp [noneModeMessage])
          · exact absurd hmsg (by simp [noneModeMessage])
          · exact absurd hmsg (by simp [noneModeMessage])
          · rfl
          · exact absurd hmsg (by simp [noneModeMessage])
      · rw [hA] at h
        simp at h
  · intro h1
    refine agentIssues_sub hA (modeIssues_sub hMode ?_)
    simp [modeIssues, h1, ← hnd]

/-- An AGENT component declaring SHARED mode with neither a shared key nor
direct connection fields. -/
def c1AgentRecord : DeploymentConfig := fun k =>
  if k = "databaseUsageMode" then some (.str "SHARED") else
  if k = "port" then some (.num 4001) else none

def c1Agent : Component :=
  ⟨"agent-1", "AGENT", none, none, c1AgentRecord⟩

theorem C1_witness :
    (⟨.error, "systems[0].components[0]" ++ ".deployment" ++ ".sharedDatabaseDeploymentKey",
      sharedModeMessage⟩ : ValidationIssue) ∈
      validateComponent "systems[0].components[0]" c1Agent :=
  (C1_amended "systems[0].components[0]" c1Agent rfl (by decide)).2.1
    (by decide) (by decide) (by decide)

/-- The warning message for a missing `mariadbPassword`. -/
def passwordMessage : String := "mariadbPassword not set (may be intentional for testing)"

/-- A WEB component with `mariadbHost` present and the other MariaDB fields
missing: the validator reports nothing for it. -/
def c6Record : DeploymentConfig := fun k =>
  if k = "mariadbHost" then some (.str "db") else
  if k = "port" then some (.num 80) else
  if k = "apiBaseUrl" then some (.str "http://agent") else none

def c6Web : Component :=
  ⟨"web-2", "WEB", none, none, c6Record⟩

/-- C6 counterexample: the claim says the MariaDB field-completeness rule
applies to every component, so this WEB component — with `mariadbHost`
present and `mariadbPort`/`mariadbUser`/`mariadbDatabase` missing — should
receive error-severity issues; the code, which gates the rule under
`componentType === 'AGENT'`, reports no issue at all for it. -/
theorem C6_counterexample :
    truthy (normalizeDeploymentConfig c6Web.deployment "mariadbHost") = true ∧
    truthy (normalizeDeploymentConfig c6Web.deployment "mariadbPort") = false ∧
    truthy (normalizeDeploymentConfig c6Web.deployment "mariadbDatabase") = false ∧
    validateComponent "systems[0].components[0]" c6Web = [] := by
  refine ⟨by decide, by decide, by decide, by decide⟩

/-- C6 (amended): for AGENT components (the code gates the rule under
`componentType === 'AGENT'`, not for every component): when any one of
mariadbHost/mariadbPort/mariadbUser is truthy on the normalized record, each
missing one of mariadbHost/mariadbPort/mariadbUser/mariadbDatabase is an
error-severity issue and a missing mariadbPassword is a warning-severity
issue only; the rule is applied independently of the SHARED
direct-connection check, so the same underlying cause can be reported
twice. -/
theorem C6_amended (compPath : String) (c : Component)
    (hA : c.componentType = "AGENT")
    (hG : (truthy (normalizeDeploymentConfig c.deployment "mariadbHost") ||
        truthy (normalizeDeploymentConfig c.deployment "mariadbPort") ||
        truthy (normalizeDeploymentConfig c.deployment "mariadbUser")) = true) :
    (truthy (normalizeDeploymentConfig c.deployment "mariadbHost") = false →
      (⟨.error, compPath ++ ".deployment" ++ ".mariadbHost",
        "mariadbHost required when using MariaDB"⟩ : ValidationIssue) ∈
        validateComponent compPath c) ∧
    (truthy (normalizeDeploymentConfig c.deployment "mariadbPort") = false →
      (⟨.error, compPath ++ ".deployment" ++ ".mariadbPort",
        "mariadbPort required when using MariaDB"⟩ : ValidationIssue) ∈
        validateComponent compPath c) ∧
    (truthy (normalizeDeploymentConfig c.deployment "mariadbUser") = false →
      (⟨.error, compPath ++ ".deployment" ++ ".mariadbUser",
        "mariadbUser required when using MariaDB"⟩ : ValidationIssue) ∈
        validateComponent compPath c) ∧
    (truthy (normalizeDeploymentConfig c.deployment "mariadbDatabase") = false →
      (⟨.error, compPath ++ ".deployment" ++ ".mariadbDatabase",
        "mariadbDatabase required when using MariaDB"⟩ : ValidationIssue) ∈
        validateComponent compPath c) ∧
    (truthy (normalizeDeploymentConfig c.deployment "mariadbPassword") = false →
      (⟨.warning, compPath ++ ".deployment" ++ ".mariadbPassword",
        passwordMessage⟩ : ValidationIssue) ∈ validateComponent compPath c ∧
      ∀ i ∈ validateComponent compPath c,
        i.message = passwordMessage → i.severity = .warning) ∧
    (normalizeDeploymentConfig c.deployment "databaseUsageMode" = some (.str "SHARED") →
      truthy (normalizeDeploymentConfig c.deployment "sharedDatabaseDeploymentKey") = false →
      truthy (normalizeDeploymentConfig c.deployment "mariadbDatabase") = false →
      (⟨.error, compPath ++ ".deployment" ++ ".sharedDatabaseDeploymentKey",
        sharedModeMessage⟩ : ValidationIssue) ∈ validateComponent compPath c ∧
      (⟨.error, compPath ++ ".deployment" ++ ".mariadbDatabase",
        "mariadbDatabase required when using MariaDB"⟩ : ValidationIssue) ∈
        validateComponent compPath c) := by
  set nd := normalizeDeploymentConfig c.deployment with hnd
  refine ⟨?_, ?_, ?_, ?_, ?_, ?_⟩
  · intro h1
    refine agentIssues_sub hA (mariadbIssues_sub hG ?_)
    simp [mariadbIssues, h1, ← hnd]
  · intro h1
    refine agentIssues_sub hA (mariadbIssues_sub hG ?_)
    simp [mariadbIssues, h1, ← hnd]
  · intro h1
    refine agentIssues_sub hA (mariadbIssues_sub hG ?_)
    simp [mariadbIssues, h1, ← hnd]
  · intro h1
    refine agentIssues_sub hA (mariadbIssues_sub hG ?_)
    simp [mariadbIssues, h1, ← hnd]
  · intro h1
    constructor
    · refine agentIssues_sub hA (mariadbIssues_sub hG ?_)
      simp [mariadbIssues, h1, passwordMessage, ← hnd]
    · intro i hi hmsg
      rcases mem_validateComponent_cases hi with h | h | h | h | h
      · rw [mem_iteSingle] at h
        rw [h.2] at hmsg
        exact absurd hmsg (by simp [passwordMessage])
      · exact (mem_legacyFieldIssues h).1
      · exact (mem_deprecatedIssues h).1
      · rw [hA, if_pos rfl, ← hnd] at h
        rcases mem_agentIssues_cases h with ⟨_, rfl⟩ | ⟨_, hm⟩ | ⟨_, hm⟩
        · exact absurd hmsg (by simp [passwordMessage])
        · rcases mem_modeIssues_cases hm with
            ⟨_, rfl⟩ | ⟨_, _, rfl⟩ | ⟨_, _, _, rfl⟩ | ⟨_, _, rfl⟩
          · exact absurd hmsg (by simp [passwordMessage])
          · exact absurd hmsg (by simp [passwordMessage])
          · exact absurd hmsg (by simp [passwordMessage, sharedModeMessage])
          · rfl
        · rcases mem_mariadbIssues_cases hm with
            ⟨_, rfl⟩ | ⟨_, rfl⟩ | ⟨_, rfl⟩ | ⟨_, rfl⟩ | ⟨_, rfl⟩
          · exact absurd hmsg (by simp [passwordMessage])
          · exact absurd hmsg (by simp [passwordMessage])
          · exact absurd hmsg (by simp [passwordMessage])
          · rfl
          · exact absurd hmsg (by simp [passwordMessage])
      · rw [hA] at h
        simp at h
  · intro h1 h2 h3
    have hMode : truthy (nd "databaseUsageMode") = true := by
      rw [h1]; decide
    have hDirect : hasDirectMariadbConnection nd = false := by
      simp [hasDirectMariadbConnection, h3]
    constructor
    · refine agentIssues_sub hA (modeIssues_sub hMode ?_)
      simp [modeIssues, h1, h2, hDirect, sharedModeMessage, ← hnd]
    · refine agentIssues_sub hA (mariadbIssues_sub hG ?_)
      simp [mariadbIssues, h3, ← hnd]

/-- An AGENT component with `mariadbHost` set and everything else missing. -/
def c6AgentRecord : DeploymentConfig := fun k =>
  if k = "mariadbHost" then some (.str "db") else
  if k = "port" then some (.num 4001) else none

def c6Agent : Component :=
  ⟨"agent-2", "AGENT", none, none, c6AgentRecord⟩

theorem C6_witness :
    (⟨.error, "systems[0].components[0]" ++ ".deployment" ++ ".mariadbDatabase",
      "mariadbDatabase required when using MariaDB"⟩ : ValidationIssue) ∈
      validateComponent "systems[0].components[0]" c6Agent :=
  ((C6_amended "systems[0].components[0]" c6Agent rfl (by decide)).2.2.2.1) (by decide)

/-- How a successful discovery was reported on the diagnostic stream:
`INFO: Auto-discovered component ...` (strategy 3) or
`WARN: Using first available component ...` (strategy 4).  Strategies 1–2
print nothing (`none`). -/
inductive DiscoverNote where
  | autoDiscovered | firstAvailable
deriving DecidableEq

/-- The result of `discoverComponent`: the component, its system id and
type, and the note reported for auto-discovery outcomes. -/
structure DiscoverResult where
  component : Component
  systemId : String
  systemType : String
  note : Option DiscoverNote

/-- The failure outcomes of `discoverComponent`.  The first four model the
thrown `Error`s of lines 29, 36, 40 and 53; `firstSystemHasNoComponents`
models the `TypeError` raised at line 68 when strategy 4 reads
`component.componentId` off `system.components[0]` with the first system
having an empty components array. -/
inductive DiscoverErr where
  | noSystems
  | systemNotFound (sid : String)
  | componentNotFoundInSystem (cid sid : String)
  | componentNotFoundInAnySystem (cid : String)
  | firstSystemHasNoComponents
deriving DecidableEq

/-- Strategy 2 of discovery (`extract-config.ts`, lines 46–54): scan systems
in document order, inside each scan components in order, return the first
component whose id matches. -/
def findByComponentId : List Sys → String → Option (Component × Sys)
  | [], _ => none
  | s :: rest, cid =>
    match s.components.find? (fun c => c.componentId == cid) with
    | some c => some (c, s)
    | none => findByComponentId rest cid

/-- Strategy 3 of discovery (`extract-config.ts`, lines 57–63): scan systems
in order, return the first component that is not explicitly disabled and has
componentType AGENT. -/
def findEnabledAgent : List Sys → Option (Component × Sys)
  | [] => none
  | s :: rest =>
    match s.components.find? (fun c => c.enabled != some false && c.componentType == "AGENT") with
    | some c => some (c, s)
    | none => findEnabledAgent rest

/-- `discoverComponent` (`extract-config.ts`, lines 23–70).  The two hint
arguments model the already-resolved target component id and system id
(`options.componentId || process.env.COMPONENT_ID || process.env.TARGET_COMPONENT_ID`
and the analogous system resolution, lines 25–26); `none` models an
absent (or empty, hence falsy) hint. -/
def discoverComponent (config : InfraConfig)
    (targetComponentId targetSystemId : Option String) :
    Except DiscoverErr DiscoverResult :=
  if config.systems.isEmpty then .error .noSystems
  else
    match targetComponentId, targetSystemId with
    | some cid, some sid =>
      match config.systems.find? (fun s => s.systemId == sid) with
      | none => .error (.systemNotFound sid)
      | some system =>
        match system.components.find? (fun c => c.componentId == cid) with
        | none => .error (.componentNotFoundInSystem cid sid)
        | some component => .ok ⟨component, system.systemId, system.systemType, none⟩
    | some cid, none =>
      match findByComponentId config.systems cid with
      | some (component, system) =>
        .ok ⟨component, system.systemId, system.systemType, none⟩
      | none => .error (.componentNotFoundInAnySystem cid)
    | none, _ =>
      match findEnabledAgent config.systems with
      | some (component, system) =>
        .ok ⟨component, system.systemId, system.systemType, some .autoDiscovered⟩
      | none =>
        match config.systems with
        | [] => .error .noSystems
        | system :: _ =>
          match system.components with
          | [] => .error .firstSystemHasNoComponents
          | component :: _ =>
            .ok ⟨component, system.systemId, system.systemType, some .firstAvailable⟩

/-- If some system contains an enabled AGENT component, strategy 3 finds
something. -/
theorem findEnabledAgent_isSome (l : List Sys)
    (h : ∃ s ∈ l, ∃ c ∈ s.components,
      (c.enabled != some false && c.componentType == "AGENT") = true) :
    (findEnabledAgent l).isSome = true := by
  induction l with
  | nil => simp at h
  | cons s rest ih =>
    obtain ⟨s', hs', c, hc, hpred⟩ := h
    cases hf : s.components.find? (fun c => c.enabled != some false && c.componentType == "AGENT") with
    | some c0 => simp [findEnabledAgent, hf]
    | none =>
      simp only [findEnabledAgent, hf]
      rcases List.mem_cons.mp hs' with rfl | hmem
      · rw [List.find?_eq_none] at hf
        exact absurd hpred (hf c hc)
      · exact ih ⟨s', hmem, c, hc, hpred⟩

/-- A document whose first system has no components, while its second
system contains a (non-AGENT) component. -/
def c2Config : InfraConfig :=
  ⟨some "1.0", some "qual", none,
   [⟨"s1", "T1", []⟩,
    ⟨"s2", "T2", [⟨"web-3", "WEB", none, none, fun _ => none⟩]⟩]⟩

/-- C2 counterexample: this document contains a system with a component, yet
auto-discovery (no componentId hint) fails: strategy 3 finds no enabled
AGENT, and strategy 4 reads the first component of the *first* system, which
has none — the claim's precondition does not make the failure branch
unreachable. -/
theorem C2_counterexample :
    (c2Config.systems.any fun s => !s.components.isEmpty) = true ∧
    discoverComponent c2Config none none = .error .firstSystemHasNoComponents :=
  ⟨by decide, rfl⟩

/-- C2 (amended): auto-discovery (no componentId hint, any systemId hint)
succeeds provided the *first* system has at least one component, or some
system contains an enabled AGENT component.  (The claim's weaker
precondition — any system with a component — is not enough: strategy 4
indexes the first system's components unconditionally.) -/
theorem C2_amended (cfg : InfraConfig) (sid : Option String)
    (h : (∃ s rest, cfg.systems = s :: rest ∧ s.components ≠ []) ∨
      ∃ s ∈ cfg.systems, ∃ c ∈ s.components,
        (c.enabled != some false && c.componentType == "AGENT") = true) :
    ∃ r, discoverComponent cfg none sid = .ok r := by
  have hne : cfg.systems ≠ [] := by
    rcases h with ⟨s, rest, heq, _⟩ | ⟨s, hs, _⟩
    · rw [heq]; exact List.cons_ne_nil _ _
    · intro he; rw [he] at hs; simp at hs
  have hie : cfg.systems.isEmpty = false := by
    cases hsys : cfg.systems with
    | nil => exact absurd hsys hne
    | cons a l => rfl
  cases hfa : findEnabledAgent cfg.systems with
  | some p =>
    obtain ⟨comp, sys⟩ := p
    exact ⟨⟨comp, sys.systemId, sys.systemType, some .autoDiscovered⟩,
      by simp [discoverComponent, hie, hfa]⟩
  | none =>
    rcases h with ⟨s, rest, heq, hcomp⟩ | hagent
    · cases hc : s.components with
      | nil => exact absurd hc hcomp
      | cons c cs =>
        rw [heq] at hfa
        refine ⟨⟨c, s.systemId, s.systemType, some .firstAvailable⟩, ?_⟩
        simp [discoverComponent, heq, hfa, hc]
    · have := findEnabledAgent_isSome cfg.systems hagent
      rw [hfa] at this
      simp at this

/-- A one-system, one-component document for the C2 witness. -/
def c2WitnessConfig : InfraConfig :=
  ⟨some "1.0", some "qual", none,
   [⟨"sW", "TW", [⟨"w", "WEB", none, none, fun _ => none⟩]⟩]⟩

theorem C2_witness :
    ∃ r, discoverComponent c2WitnessConfig none none = .ok r :=
  C2_amended c2WitnessConfig none
    (Or.inl ⟨⟨"sW", "TW", [⟨"w", "WEB", none, none, fun _ => none⟩]⟩, [], rfl,
      List.cons_ne_nil _ _⟩)

/-- All (system, component) pairs of a document, in document order. -/
def pairsInOrder (cfg : InfraConfig) : List (Sys × Component) :=
  cfg.systems.flatMap fun s => s.components.map fun c => (s, c)

/-- Strategy 2's nested scan equals a first-match search of the flattened
document-order pair list. -/
theorem findByComponentId_eq (l : List Sys) (cid : String) :
    findByComponentId l cid =
      (((l.flatMap fun s => s.components.map fun c => (s, c)).find?
        fun p => p.2.componentId == cid).map fun p => (p.2, p.1)) := by
  induction l with
  | nil => rfl
  | cons s rest ih =>
    simp only [List.flatMap_cons, List.find?_append, List.find?_map]
    cases hf : s.components.find? (fun c => c.componentId == cid) with
    | some c =>
      have hf' : s.components.find?
          ((fun p : Sys × Component => p.2.componentId == cid) ∘ fun c => (s, c)) = some c := hf
      simp [findByComponentId, hf, hf']
    | none =>
      have hf' : s.components.find?
          ((fun p : Sys × Component => p.2.componentId == cid) ∘ fun c => (s, c)) = none := hf
      simp [findByComponentId, hf, hf', ih]

/-- Strategy 3's nested scan equals a first-match search of the flattened
document-order pair list. -/
theorem findEnabledAgent_eq (l : List Sys) :
    findEnabledAgent l =
      (((l.flatMap fun s => s.components.map fun c => (s, c)).find?
        fun p => p.2.enabled != some false && p.2.componentType == "AGENT").map
          fun p => (p.2, p.1)) := by
  induction l with
  | nil => rfl
  | cons s rest ih =>
    simp only [List.flatMap_cons, List.find?_append, List.find?_map]
    cases hf : s.components.find? (fun c => c.enabled != some false && c.componentType == "AGENT") with
    | some c =>
      have hf' : s.components.find?
          ((fun p : Sys × Component => p.2.enabled != some false && p.2.componentType == "AGENT") ∘
            fun c => (s, c)) = some c := hf
      simp [findEnabledAgent, hf, hf']
    | none =>
      have hf' : s.components.find?
          ((fun p : Sys × Component => p.2.enabled != some false && p.2.componentType == "AGENT") ∘
            fun c => (s, c)) = none := hf
      simp [findEnabledAgent, hf, hf', ih]

/-- A disabled AGENT followed by an enabled WEB component, in one system. -/
def c3DisabledAgent : Component :=
  ⟨"agent-off", "AGENT", none, some false, fun _ => none⟩

def c3EnabledWeb : Component :=
  ⟨"web-on", "WEB", none, some true,
   fun k => if k = "port" then some (.num 80) else none⟩

def c3Config : InfraConfig :=
  ⟨some "1.0", some "qual", none, [⟨"sE", "TE", [c3DisabledAgent, c3EnabledWeb]⟩]⟩

/-- C3: the four discovery strategies, each tried only if the previous
yields no candidate.  (1) With both hints: system by exact id
(`SystemNotFound` if absent), then component within it by exact id
(`ComponentNotFound` if absent).  (2) With only a componentId hint: first
exact match scanning systems and components in document order
(`ComponentNotFound` if nowhere).  (3) With no hints: the first component in
document order that is an AGENT not explicitly disabled, reported as an
informational note.  (4) Otherwise the first component of the first system,
reported as a warning-grade fallback note — in particular a document with
one disabled AGENT and one enabled WEB component yields the first component
in document order. -/
theorem C3_discovery_strategies :
    (∀ (cfg : InfraConfig) (sid cid : String), cfg.systems.isEmpty = false →
      discoverComponent cfg (some cid) (some sid) =
        match cfg.systems.find? (fun s => s.systemId == sid) with
        | none => .error (.systemNotFound sid)
        | some s =>
          match s.components.find? (fun c => c.componentId == cid) with
          | none => .error (.componentNotFoundInSystem cid sid)
          | some comp => .ok ⟨comp, s.systemId, s.systemType, none⟩) ∧
    (∀ (cfg : InfraConfig) (cid : String), cfg.systems.isEmpty = false →
      discoverComponent cfg (some cid) none =
        match (pairsInOrder cfg).find? (fun p => p.2.componentId == cid) with
        | some p => .ok ⟨p.2, p.1.systemId, p.1.systemType, none⟩
        | none => .error (.componentNotFoundInAnySystem cid)) ∧
    (∀ cfg : InfraConfig, cfg.systems.isEmpty = false →
      discoverComponent cfg none none =
        match (pairsInOrder cfg).find?
            (fun p => p.2.enabled != some false && p.2.componentType == "AGENT") with
        | some p => .ok ⟨p.2, p.1.systemId, p.1.systemType, some .autoDiscovered⟩
        | none =>
          match cfg.systems with
          | [] => .error .noSystems
          | s :: _ =>
            match s.components with
            | [] => .error .firstSystemHasNoComponents
            | c :: _ => .ok ⟨c, s.systemId, s.systemType, some .firstAvailable⟩) ∧
    discoverComponent c3Config none none =
      .ok ⟨c3DisabledAgent, "sE", "TE", some .firstAvailable⟩ := by
  refine ⟨?_, ?_, ?_, rfl⟩
  · intro cfg sid cid h
    simp [discoverComponent, h]
  · intro cfg cid h
    simp only [discoverComponent, h, Bool.false_eq_true, if_false]
    rw [findByComponentId_eq]
    simp only [pairsInOrder]
    cases hf : ((cfg.systems.flatMap fun s => s.components.map fun c => (s, c)).find?
        fun p => p.2.componentId == cid) with
    | some p =>
      obtain ⟨s, c⟩ := p
      simp [hf]
    | none => simp [hf]
  · intro cfg h
    simp only [discoverComponent, h, Bool.false_eq_true, if_false]
    rw [findEnabledAgent_eq]
    simp only [pairsInOrder]
    cases hf : ((cfg.systems.flatMap fun s => s.components.map fun c => (s, c)).find?
        fun p => p.2.enabled != some false && p.2.componentType == "AGENT") with
    | some p =>
      obtain ⟨s, c⟩ := p
      simp [hf]
    | none => simp [hf]

def c3WComp : Component := ⟨"a1", "AGENT", none, none, fun _ => none⟩

def c3WitnessConfig : InfraConfig :=
  ⟨some "1.0", some "qual", none, [⟨"sA", "TA", [c3WComp]⟩]⟩

theorem C3_witness :
    discoverComponent c3WitnessConfig (some "a1") (some "sA") =
      .ok ⟨c3WComp, "sA", "TA", none⟩ := by
  rw [C3_discovery_strategies.1 c3WitnessConfig "sA" "a1" rfl]
  rfl

def c10Agent : Component := ⟨"a10", "AGENT", none, none, fun _ => none⟩

def c10Config : InfraConfig :=
  ⟨some "1.0", some "qual", none,
   [⟨"s1", "T1", [c10Agent]⟩,
    ⟨"s2", "T2", [⟨"w10", "WEB", none, none, fun _ => none⟩]⟩]⟩

/-- C10: with no componentId hint, the systemId hint is never consulted:
discovery with only a systemId hint returns exactly the result of discovery
with no hints, for every document and every hint value — and concretely it
may return a component of a system other than the hinted one. -/
theorem C10_systemId_hint_noninterference :
    (∀ (cfg : InfraConfig) (sid : String),
      discoverComponent cfg none (some sid) = discoverComponent cfg none none) ∧
    discoverComponent c10Config none (some "s2") =
      .ok ⟨c10Agent, "s1", "T1", some .autoDiscovered⟩ := by
  refine ⟨?_, rfl⟩
  intro cfg sid
  cases h : cfg.systems.isEmpty <;> simp [discoverComponent, h]

theorem char_toNat_ofNat (m : Nat) (h : m.isValidChar) :
    (Char.ofNat m).toNat = m := by
  rw [Char.ofNat, dif_pos h]
  rfl

/-- `Char.toUpper` maps only lowercase latin letters (to uppercase ones),
so it cannot produce an underscore from a non-underscore. -/
theorem toUpper_ne_underscore {c : Char} (h : c ≠ '_') :
    Char.toUpper c ≠ '_' := by
  simp only [Char.toUpper]
  split
  · intro heq
    rename_i hrange
    have hv : (c.toNat - 32).isValidChar := Or.inl (by omega)
    have ht : (Char.ofNat (c.toNat - 32)).toNat = c.toNat - 32 :=
      char_toNat_ofNat _ hv
    rw [heq] at ht
    have h95 : ('_').toNat = 95 := rfl
    omega
  · exact h

/-- `key.replace(/([A-Z])/g, '_$1')`: prefix every uppercase latin letter
with an underscore (`extract-config.ts`, line 77). -/
def insertU : List Char → List Char
  | [] => []
  | c :: cs => if c.isUpper then '_' :: c :: insertU cs else c :: insertU cs

/-- `.replace(/^_/, '')`: drop a single leading underscore
(`extract-config.ts`, line 79). -/
def stripLead (l : List Char) : List Char :=
  match l with
  | [] => []
  | c :: cs => if c = '_' then cs else c :: cs

/-- `toEnvVarName` (`extract-config.ts`, lines 75–80): prefix every
uppercase letter with an underscore, upper-case the whole string, then
drop one leading underscore. -/
def toEnvVarName (key : String) : String :=
  String.mk (stripLead ((insertU key.data).map Char.toUpper))

/-- Modelled from the claim's words: upper-case the name and insert an
underscore before every *internal uppercase letter-run boundary* (a
position after the first character where an uppercase letter follows a
non-uppercase one). -/
def runBoundaryAux (prev : Char) : List Char → List Char
  | [] => []
  | c :: cs =>
    if c.isUpper && !prev.isUpper then '_' :: Char.toUpper c :: runBoundaryAux c cs
    else Char.toUpper c :: runBoundaryAux c cs

def runBoundaryEnvName (key : String) : String :=
  match key.data with
  | [] => ""
  | c :: cs => String.mk (Char.toUpper c :: runBoundaryAux c cs)

/-- The amended transform: upper-case the name and insert an underscore
before every uppercase letter except a leading one. -/
def upperLetterAux : List Char → List Char
  | [] => []
  | c :: cs =>
    if c.isUpper then '_' :: Char.toUpper c :: upperLetterAux cs
    else Char.toUpper c :: upperLetterAux cs

def upperLetterEnvName (key : String) : String :=
  match key.data with
  | [] => ""
  | c :: cs => String.mk (Char.toUpper c :: upperLetterAux cs)

/-- C7 counterexample: on a name with an uppercase run (`apiURL`) the code
underscores every uppercase letter (`API_U_R_L`), not just the run boundary
(`API_URL`) the claim describes; and on a name beginning with an underscore
followed by a capital, the output keeps a leading underscore (only one is
stripped). -/
theorem C7_counterexample :
    toEnvVarName "apiURL" = "API_U_R_L" ∧
    runBoundaryEnvName "apiURL" = "API_URL" ∧
    ("API_U_R_L" : String) ≠ "API_URL" ∧
    toEnvVarName "_Url" = "_URL" :=
  ⟨rfl, rfl, by decide, rfl⟩

theorem map_toUpper_insertU (cs : List Char) :
    (insertU cs).map Char.toUpper = upperLetterAux cs := by
  induction cs with
  | nil => rfl
  | cons c cs ih =>
    by_cases hc : c.isUpper
    · simp [insertU, upperLetterAux, hc, ih]
    · simp [insertU, upperLetterAux, hc, ih]

/-- C7 (amended): for every field name that does not itself begin with an
underscore, `toEnvVarName` upper-cases the name with an underscore inserted
before every (not merely run-leading) internal uppercase letter, and the
result has no leading underscore — including names beginning with a capital
letter or a leading-capital acronym. -/
theorem C7_amended (key : String) (h : key.data.head? ≠ some '_') :
    toEnvVarName key = upperLetterEnvName key ∧
    (toEnvVarName key).data.head? ≠ some '_' := by
  obtain ⟨l⟩ := key
  cases l with
  | nil => exact ⟨rfl, by simp [toEnvVarName, insertU, stripLead]⟩
  | cons c cs =>
    have hc' : c ≠ '_' := by
      intro hceq
      exact h (by simp [hceq])
    have hu : Char.toUpper c ≠ '_' := toUpper_ne_underscore hc'
    by_cases hc : c.isUpper
    · constructor
      · simp only [toEnvVarName, upperLetterEnvName, insertU, hc, if_true, List.map_cons,
          map_toUpper_insertU]
        have h1 : Char.toUpper '_' = '_' := rfl
        rw [h1]
        simp [stripLead]
      · simp only [toEnvVarName, insertU, hc, if_true, List.map_cons]
        have h1 : Char.toUpper '_' = '_' := rfl
        rw [h1]
        simp [stripLead, hu]
    · constructor
      · simp only [toEnvVarName, upperLetterEnvName, insertU, hc, if_false, List.map_cons,
          map_toUpper_insertU]
        simp [stripLead, hu, map_toUpper_insertU]
      · simp only [toEnvVarName, insertU, hc, if_false, List.map_cons]
        simp [stripLead, hu]

theorem C7_witness :
    toEnvVarName "mariadbSslEnabled" = upperLetterEnvName "mariadbSslEnabled" ∧
    (toEnvVarName "mariadbSslEnabled").data.head? ≠ some '_' :=
  C7_amended "mariadbSslEnabled" (by decide)

/-- `.toUpperCase()` on an inner module key: upper-case every character
(identical to `String.toUpper`, stated on the character list so that it
computes by reduction). -/
def jsToUpperCase (s : String) : String :=
  String.mk (s.data.map Char.toUpper)

/-- JavaScript object assignment `envVars[k] = v` on the ordered record:
overwrite in place when the key exists, append otherwise. -/
def setVar (m : List (String × String)) (k v : String) : List (String × String) :=
  if m.any (fun p => p.1 == k) then
    m.map fun p => if p.1 == k then (k, v) else p
  else m ++ [(k, v)]

/-- Reading a key off the ordered record. -/
def lookupVar (m : List (String × String)) (k : String) : Option String :=
  (m.find? fun p => p.1 == k).map Prod.snd

def hexDigit (n : Nat) : Char :=
  if n < 10 then Char.ofNat (48 + n) else Char.ofNat (87 + n)

/-- `JSON.stringify` escaping for one character of a string value. -/
def escapeJsonChar (c : Char) : String :=
  if c = '"' then "\\\"" else
  if c = '\\' then "\\\\" else
  if c = '\x08' then "\\b" else
  if c = '\x0c' then "\\f" else
  if c = '\n' then "\\n" else
  if c = '\r' then "\\r" else
  if c = '\t' then "\\t" else
  if c.toNat < 32 then "\\u00" ++ String.mk [hexDigit (c.toNat / 16), hexDigit (c.toNat % 16)]
  else String.mk [c]

def escapeJson (s : String) : String :=
  String.join (s.data.map escapeJsonChar)

/-- Compact `JSON.stringify` of a flat string→string mapping. -/
def jsonStringifyFlat (m : List (String × String)) : String :=
  "\x7b" ++ String.intercalate ","
    (m.map fun p => "\"" ++ escapeJson p.1 ++ "\":\"" ++ escapeJson p.2 ++ "\"") ++ "\x7d"

/-- `extractEnvVars` (`extract-config.ts`, lines 85–126): iterate the
record's entries in order; skip null (and undefined) values; expand the two
grouping fields `moduleUrls`/`moduleApiBaseUrls` into one `VITE_*` variable
per inner key; serialize other object values as compact JSON; booleans as
`true`/`false`; numbers and strings verbatim. -/
def extractEnvVars (deployment : List (String × JValue)) : List (String × String) :=
  deployment.foldl (fun envVars kv =>
    match kv.2 with
    | .null => envVars
    | .obj m =>
      if kv.1 = "moduleUrls" then
        m.foldl (fun acc p => setVar acc ("VITE_" ++ jsToUpperCase p.1 ++ "_URL") p.2) envVars
      else if kv.1 = "moduleApiBaseUrls" then
        m.foldl (fun acc p => setVar acc ("VITE_" ++ jsToUpperCase p.1 ++ "_API_BASE_URL") p.2) envVars
      else setVar envVars (toEnvVarName kv.1) (jsonStringifyFlat m)
    | .bool b => setVar envVars (toEnvVarName kv.1) (if b then "true" else "false")
    | .num n => setVar envVars (toEnvVarName kv.1) (toString n)
    | .str s => setVar envVars (toEnvVarName kv.1) s) []

/-- The claim-side description: the variables one entry contributes. -/
def entryVars : String × JValue → List (String × String)
  | (_, .null) => []
  | (key, .bool b) => [(toEnvVarName key, if b then "true" else "false")]
  | (key, .num n) => [(toEnvVarName key, toString n)]
  | (key, .str s) => [(toEnvVarName key, s)]
  | (key, .obj m) =>
    if key = "moduleUrls" then
      m.map fun p => ("VITE_" ++ jsToUpperCase p.1 ++ "_URL", p.2)
    else if key = "moduleApiBaseUrls" then
      m.map fun p => ("VITE_" ++ jsToUpperCase p.1 ++ "_API_BASE_URL", p.2)
    else [(toEnvVarName key, jsonStringifyFlat m)]

/-- Assign a batch of variables in order. -/
def setVars (m : List (String × String)) (l : List (String × String)) :
    List (String × String) :=
  l.foldl (fun acc p => setVar acc p.1 p.2) m

theorem mem_setVar {p : String × String} {m : List (String × String)}
    {k v : String} (h : p ∈ setVar m k v) : p.1 = k ∨ p ∈ m := by
  unfold setVar at h
  split at h
  · rw [List.mem_map] at h
    obtain ⟨q, hq, hpe⟩ := h
    by_cases hqk : (q.1 == k) = true
    · rw [if_pos hqk] at hpe
      exact Or.inl (by rw [← hpe])
    · rw [if_neg hqk] at hpe
      exact Or.inr (hpe ▸ hq)
  · rw [List.mem_append] at h
    rcases h with h | h
    · exact Or.inr h
    · simp at h
      exact Or.inl (by rw [h])

theorem vite_ne_moduleUrls (x y : String) : ("VITE_" ++ x ++ y) ≠ "MODULE_URLS" := by
  intro h
  have hh := congrArg (fun s => s.data.head?) h
  simp at hh

theorem moduleUrls_not_in_fold (m : List (String × String))
    (acc : List (String × String))
    (hacc : ∀ p ∈ acc, p.1 ≠ "MODULE_URLS") :
    ∀ p ∈ m.foldl (fun acc p => setVar acc ("VITE_" ++ jsToUpperCase p.1 ++ "_URL") p.2) acc,
      p.1 ≠ "MODULE_URLS" := by
  induction m generalizing acc with
  | nil => exact hacc
  | cons q rest ih =>
    intro p hp
    refine ih _ ?_ p hp
    intro r hr
    rcases mem_setVar hr with h | h
    · rw [h]
      exact vite_ne_moduleUrls _ _
    · exact hacc r h

/-- C8: `extractEnvVars` stringifies every entry exactly as described by
`entryVars` — null/undefined omitted, booleans as literal `true`/`false`
tokens, numbers and strings verbatim, the two grouping fields expanded into
one `VITE_*` variable per inner key, every other object serialized as
compact JSON; concretely `mariadbSslEnabled: true` yields
`MARIADB_SSL_ENABLED=true`, and `moduleUrls = {"iam": "http://x"}` yields
`VITE_IAM_URL=http://x` with no `MODULE_URLS` variable at all. -/
theorem C8_extract_stringification :
    (∀ deployment : List (String × JValue),
      extractEnvVars deployment =
        deployment.foldl (fun acc e => setVars acc (entryVars e)) []) ∧
    (∀ m : List (String × String),
      ∀ p ∈ extractEnvVars [("moduleUrls", .obj m)], p.1 ≠ "MODULE_URLS") ∧
    extractEnvVars [("mariadbSslEnabled", .bool true)] =
      [("MARIADB_SSL_ENABLED", "true")] ∧
    extractEnvVars [("moduleUrls", .obj [("iam", "http://x")])] =
      [("VITE_IAM_URL", "http://x")] := by
  refine ⟨?_, ?_, rfl, rfl⟩
  · intro deployment
    unfold extractEnvVars
    apply List.foldl_ext
    intro acc e _
    obtain ⟨key, v⟩ := e
    cases v with
    | null => rfl
    | str s => rfl
    | num n => rfl
    | bool b => rfl
    | obj m =>
      by_cases h1 : key = "moduleUrls"
      · simp [entryVars, setVars, h1, List.foldl_map]
      · by_cases h2 : key = "moduleApiBaseUrls"
        · simp [entryVars, setVars, h1, h2, List.foldl_map]
        · simp [entryVars, setVars, h1, h2, setVar]
  · intro m
    exact moduleUrls_not_in_fold m [] (by simp)

theorem C8_witness : ("VITE_IAM_URL", "http://x").1 ≠ "MODULE_URLS" :=
  C8_extract_stringification.2.1 [("iam", "http://x")] ("VITE_IAM_URL", "http://x")
    (by decide)

theorem string_append_ne {pre m : String} (x : String)
    (h : m.data.take pre.data.length ≠ pre.data) : pre ++ x ≠ m := by
  intro he
  apply h
  rw [← he]
  simp only [String.data_append]
  exact List.take_left _ _

theorem string_append_left_cancel {a x y : String} (h : a ++ x = a ++ y) : x = y := by
  have hd := congrArg String.data h
  simp only [String.data_append] at hd
  exact String.ext (List.append_cancel_left hd)

theorem string_append_right_cancel {a x y : String} (h : x ++ a = y ++ a) : x = y := by
  have hd := congrArg String.data h
  simp only [String.data_append] at hd
  exact String.ext (List.append_cancel_right hd)

/-- Template-literal coercion of a field value. -/
def jsString : JValue → String
  | .str s => s
  | .num n => toString n
  | .bool b => if b then "true" else "false"
  | .null => "null"
  | .obj _ => "[object Object]"

/-- `${mode}` in the extractor's invalid-mode warning. -/
def jsStringOpt : Option JValue → String
  | some v => jsString v
  | none => "undefined"

/-- The extractor's interpolated invalid-mode warning
(`extract-config.ts`, line 156). -/
def invalidModeWarn (v : Option JValue) : String :=
  "WARN: Invalid databaseUsageMode \x27" ++
    (jsStringOpt v ++ "\x27. Must be LOCAL, SHARED, or NONE")

/-- The extractor's interpolated deprecated-field warning
(`extract-config.ts`, line 202). -/
def extractorDepWarn (f : String) : String :=
  "WARN: Deprecated field \x27" ++
    (f ++ "\x27 found. Please migrate to standard field name.")

/-- The extractor's deprecated-field list (`extract-config.ts`, lines
194–198) — twelve entries; unlike the validator's table it does not include
`iamApiUrl` or `apiUrl`. -/
def extractorDeprecatedFields : List String :=
  ["postgresHost", "postgresPort", "postgresUser", "postgresPassword", "postgresDb",
   "mysqlHost", "mysqlPort", "mysqlUser", "mysqlPassword", "mysqlDatabase",
   "mariadbDb", "corsOrigins"]

/-- The MariaDB field-completeness warnings of the extractor
(`extract-config.ts`, lines 143–150). -/
def extractorMariadbWarns (nd : DeploymentConfig) : List String :=
  (if !truthy (nd "mariadbHost") then
    ["WARN: mariadbHost is missing but other DB fields present"] else []) ++
  (if !truthy (nd "mariadbPort") then
    ["WARN: mariadbPort is missing but other DB fields present"] else []) ++
  (if !truthy (nd "mariadbUser") then
    ["WARN: mariadbUser is missing but other DB fields present"] else []) ++
  (if !truthy (nd "mariadbPassword") then
    ["WARN: mariadbPassword is missing but other DB fields present"] else []) ++
  (if !truthy (nd "mariadbDatabase") then
    ["WARN: mariadbDatabase is missing but other DB fields present"] else [])

/-- The `databaseUsageMode` warnings of the extractor
(`extract-config.ts`, lines 152–191); the NONE branch checks all seven
database fields, not just the local URL and shared key. -/
def extractorModeWarns (nd : DeploymentConfig) : List String :=
  (if !modeIncluded (nd "databaseUsageMode") then
    [invalidModeWarn (nd "databaseUsageMode")] else []) ++
  (if nd "databaseUsageMode" = some (.str "LOCAL") then
    (if !truthy (nd "localDatabaseUrl") then
      ["WARN: localDatabaseUrl is required for LOCAL usage mode"] else [])
  else []) ++
  (if nd "databaseUsageMode" = some (.str "SHARED") then
    (if !truthy (nd "sharedDatabaseDeploymentKey") && !hasDirectMariadbConnection nd then
      ["WARN: For SHARED usage mode, provide sharedDatabaseDeploymentKey OR provide direct MariaDB connection fields (mariadbHost/mariadbPort/mariadbUser/mariadbDatabase)"]
    else [])
  else []) ++
  (if nd "databaseUsageMode" = some (.str "NONE") then
    (if truthy (nd "localDatabaseUrl") || truthy (nd "sharedDatabaseDeploymentKey") ||
        truthy (nd "mariadbHost") || truthy (nd "mariadbPort") ||
        truthy (nd "mariadbUser") || truthy (nd "mariadbPassword") ||
        truthy (nd "mariadbDatabase") then
      ["WARN: Database fields present but usage mode is NONE"] else [])
  else [])

/-- The AGENT-only warnings of the extractor
(`extract-config.ts`, lines 141–191): MariaDB completeness first, then the
mode rules. -/
def extractorAgentWarns (nd : DeploymentConfig) : List String :=
  (if truthy (nd "mariadbHost") || truthy (nd "mariadbPort") || truthy (nd "mariadbUser") then
    extractorMariadbWarns nd
  else []) ++
  (if truthy (nd "databaseUsageMode") then extractorModeWarns nd else [])

/-- The deprecated-field warnings of the extractor
(`extract-config.ts`, lines 200–204), checked on the normalized record. -/
def extractorDeprecatedWarns (nd : DeploymentConfig) : List String :=
  extractorDeprecatedFields.flatMap fun f =>
    if (nd f).isSome then [extractorDepWarn f] else []

/-- `validateRequiredParams` (`extract-config.ts`, lines 131–207): the
per-component validation the Extractor runs on the selected component; the
`systemType` parameter is accepted but never read, as in the source. -/
def validateRequiredParams (component : Component) (systemType : String) : List String :=
  let deployment := normalizeDeploymentConfig component.deployment
  (if !truthy (deployment "port") then
    ["WARN: Missing required parameter: deployment.port"] else []) ++
  (if component.componentType = "AGENT" then extractorAgentWarns deployment else []) ++
  extractorDeprecatedWarns deployment

/-- An AGENT component whose deployment uses the retired `apiUrl` field. -/
def c9Record : DeploymentConfig := fun k =>
  if k = "port" then some (.num 4001) else
  if k = "apiUrl" then some (.str "http://old") else none

def c9Agent : Component :=
  ⟨"agent-9", "AGENT", none, none, c9Record⟩

/-- C9 counterexample: on an AGENT component using the retired `apiUrl`
field, the Validator's per-component rules report a deprecated-field
finding, while the Extractor's `validateRequiredParams` reports nothing at
all — the two embeddings do not agree finding for finding. -/
theorem C9_counterexample :
    validateRequiredParams c9Agent "IAM" = [] ∧
    (⟨.warning, "p" ++ ".deployment" ++ "." ++ "apiUrl",
      "Deprecated field. " ++ "Use apiBaseUrl instead"⟩ : ValidationIssue) ∈
      validateComponent "p" c9Agent :=
  ⟨by decide, by decide⟩

theorem append_ne_append {p q : String} (x y : String)
    (hlen : p.data.length ≤ q.data.length)
    (h : q.data.take p.data.length ≠ p.data) : p ++ x ≠ q ++ y := by
  intro he
  apply h
  have hd := congrArg String.data he
  simp only [String.data_append] at hd
  have ht := congrArg (List.take p.data.length) hd
  rw [List.take_left, List.take_append_eq_append_take,
    Nat.sub_eq_zero_of_le hlen] at ht
  simp at ht
  exact ht.symm

theorem extractorDepWarn_inj {f g : String}
    (h : extractorDepWarn f = extractorDepWarn g) : f = g :=
  string_append_right_cancel (string_append_left_cancel h)

theorem mem_extractorMariadbWarns_cases {w : String} {nd : DeploymentConfig}
    (h : w ∈ extractorMariadbWarns nd) :
    (truthy (nd "mariadbHost") = false ∧
      w = "WARN: mariadbHost is missing but other DB fields present") ∨
    (truthy (nd "mariadbPort") = false ∧
      w = "WARN: mariadbPort is missing but other DB fields present") ∨
    (truthy (nd "mariadbUser") = false ∧
      w = "WARN: mariadbUser is missing but other DB fields present") ∨
    (truthy (nd "mariadbPassword") = false ∧
      w = "WARN: mariadbPassword is missing but other DB fields present") ∨
    (truthy (nd "mariadbDatabase") = false ∧
      w = "WARN: mariadbDatabase is missing but other DB fields present") := by
  simp only [extractorMariadbWarns, List.mem_append] at h
  rcases h with (((h | h) | h) | h) | h <;> rw [mem_iteSingle] at h
  · exact Or.inl ⟨by simpa using h.1, h.2⟩
  · exact Or.inr (Or.inl ⟨by simpa using h.1, h.2⟩)
  · exact Or.inr (Or.inr (Or.inl ⟨by simpa using h.1, h.2⟩))
  · exact Or.inr (Or.inr (Or.inr (Or.inl ⟨by simpa using h.1, h.2⟩)))
  · exact Or.inr (Or.inr (Or.inr (Or.inr ⟨by simpa using h.1, h.2⟩)))

theorem mem_extractorModeWarns_cases {w : String} {nd : DeploymentConfig}
    (h : w ∈ extractorModeWarns nd) :
    (modeIncluded (nd "databaseUsageMode") = false ∧
      w = invalidModeWarn (nd "databaseUsageMode")) ∨
    (nd "databaseUsageMode" = some (.str "LOCAL") ∧
      truthy (nd "localDatabaseUrl") = false ∧
      w = "WARN: localDatabaseUrl is required for LOCAL usage mode") ∨
    (nd "databaseUsageMode" = some (.str "SHARED") ∧
      truthy (nd "sharedDatabaseDeploymentKey") = false ∧
      hasDirectMariadbConnection nd = false ∧
      w = "WARN: For SHARED usage mode, provide sharedDatabaseDeploymentKey OR provide direct MariaDB connection fields (mariadbHost/mariadbPort/mariadbUser/mariadbDatabase)") ∨
    (nd "databaseUsageMode" = some (.str "NONE") ∧
      (truthy (nd "localDatabaseUrl") || truthy (nd "sharedDatabaseDeploymentKey") ||
        truthy (nd "mariadbHost") || truthy (nd "mariadbPort") ||
        truthy (nd "mariadbUser") || truthy (nd "mariadbPassword") ||
        truthy (nd "mariadbDatabase")) = true ∧
      w = "WARN: Database fields present but usage mode is NONE") := by
  simp only [extractorModeWarns, List.mem_append] at h
  rcases h with ((h | h) | h) | h
  · rw [mem_iteSingle] at h
    exact Or.inl ⟨by simpa using h.1, h.2⟩
  · split at h
    · rw [mem_iteSingle] at h
      exact Or.inr (Or.inl ⟨by assumption, by simpa using h.1, h.2⟩)
    · simp at h
  · split at h
    · rw [mem_iteSingle] at h
      have hc := h.1
      rw [Bool.and_eq_true, Bool.not_eq_true', Bool.not_eq_true'] at hc
      exact Or.inr (Or.inr (Or.inl ⟨by assumption, hc.1, hc.2, h.2⟩))
    · simp at h
  · split at h
    · rw [mem_iteSingle] at h
      exact Or.inr (Or.inr (Or.inr ⟨by assumption, h.1, h.2⟩))
    · simp at h

theorem mem_extractorAgentWarns_cases {w : String} {nd : DeploymentConfig}
    (h : w ∈ extractorAgentWarns nd) :
    ((truthy (nd "mariadbHost") || truthy (nd "mariadbPort") ||
        truthy (nd "mariadbUser")) = true ∧ w ∈ extractorMariadbWarns nd) ∨
    (truthy (nd "databaseUsageMode") = true ∧ w ∈ extractorModeWarns nd) := by
  simp only [extractorAgentWarns, List.mem_append] at h
  rcases h with h | h
  · rcases Decidable.em ((truthy (nd "mariadbHost") || truthy (nd "mariadbPort") ||
        truthy (nd "mariadbUser")) = true) with ht | ht
    · exact Or.inl ⟨ht, by simpa [ht] using h⟩
    · simp [eq_false_of_ne_true ht] at h
  · rcases Decidable.em (truthy (nd "databaseUsageMode") = true) with ht | ht
    · exact Or.inr ⟨ht, by simpa [ht] using h⟩
    · simp [eq_false_of_ne_true ht] at h

theorem mem_extractorDeprecatedWarns_cases {w : String} {nd : DeploymentConfig}
    (h : w ∈ extractorDeprecatedWarns nd) :
    ∃ f ∈ extractorDeprecatedFields, (nd f).isSome = true ∧ w = extractorDepWarn f := by
  simp only [extractorDeprecatedWarns, List.mem_flatMap] at h
  obtain ⟨f, hf, hw⟩ := h
  rw [mem_iteSingle] at hw
  exact ⟨f, hf, hw.1, hw.2⟩

theorem mem_validateRequiredParams_cases {w : String} {c : Component} {st : String}
    (h : w ∈ validateRequiredParams c st) :
    (truthy (normalizeDeploymentConfig c.deployment "port") = false ∧
      w = "WARN: Missing required parameter: deployment.port") ∨
    (c.componentType = "AGENT" ∧
      w ∈ extractorAgentWarns (normalizeDeploymentConfig c.deployment)) ∨
    w ∈ extractorDeprecatedWarns (normalizeDeploymentConfig c.deployment) := by
  simp only [validateRequiredParams, List.mem_append] at h
  rcases h with (h | h) | h
  · rw [mem_iteSingle] at h
    exact Or.inl ⟨by simpa using h.1, h.2⟩
  · rcases Decidable.em (c.componentType = "AGENT") with ht | ht
    · exact Or.inr (Or.inl ⟨ht, by simpa [ht] using h⟩)
    · simp [ht] at h
  · exact Or.inr (Or.inr h)

theorem extractorAgentWarns_sub {w : String} {c : Component} {st : String}
    (hA : c.componentType = "AGENT")
    (h : w ∈ extractorAgentWarns (normalizeDeploymentConfig c.deployment)) :
    w ∈ validateRequiredParams c st := by
  simp only [validateRequiredParams, List.mem_append, hA]
  tauto

theorem extractorMariadbWarns_sub {w : String} {nd : DeploymentConfig}
    (hG : (truthy (nd "mariadbHost") || truthy (nd "mariadbPort") ||
        truthy (nd "mariadbUser")) = true)
    (h : w ∈ extractorMariadbWarns nd) : w ∈ extractorAgentWarns nd := by
  simp only [extractorAgentWarns, List.mem_append, hG, if_true]
  tauto

theorem extractorModeWarns_sub {w : String} {nd : DeploymentConfig}
    (hMode : truthy (nd "databaseUsageMode") = true)
    (h : w ∈ extractorModeWarns nd) : w ∈ extractorAgentWarns nd := by
  simp only [extractorAgentWarns, List.mem_append, hMode, if_true]
  tauto

theorem extractorDeprecatedWarns_sub {w : String} {c : Component} {st : String}
    (h : w ∈ extractorDeprecatedWarns (normalizeDeploymentConfig c.deployment)) :
    w ∈ validateRequiredParams c st := by
  simp only [validateRequiredParams, List.mem_append]
  tauto

theorem W_port_iff {c : Component} {st : String} (hA : c.componentType = "AGENT") :
    "WARN: Missing required parameter: deployment.port" ∈ validateRequiredParams c st ↔
      truthy (normalizeDeploymentConfig c.deployment "port") = false := by
  constructor
  · intro h
    rcases mem_validateRequiredParams_cases h with ⟨hc, _⟩ | ⟨_, hAg⟩ | hDep
    · exact hc
    · rcases mem_extractorAgentWarns_cases hAg with ⟨_, hmw⟩ | ⟨_, hmod⟩
      · rcases mem_extractorMariadbWarns_cases hmw with
          ⟨_, he⟩ | ⟨_, he⟩ | ⟨_, he⟩ | ⟨_, he⟩ | ⟨_, he⟩ <;> exact absurd he (by decide)
      · rcases mem_extractorModeWarns_cases hmod with
          ⟨_, he⟩ | ⟨_, _, he⟩ | ⟨_, _, _, he⟩ | ⟨_, _, he⟩
        · exact absurd he.symm (string_append_ne _ (by decide))
        · exact absurd he (by decide)
        · exact absurd he (by decide)
        · exact absurd he (by decide)
    · obtain ⟨f, _, _, he⟩ := mem_extractorDeprecatedWarns_cases hDep
      exact absurd he.symm (string_append_ne _ (by decide))
  · intro hc
    simp only [validateRequiredParams, List.mem_append]
    left
    left
    simp [hc]

theorem W_mariadb_iff {c : Component} {st : String} (hA : c.componentType = "AGENT") :
    ∀ fld msg, (fld, msg) ∈ ([
      ("mariadbHost", "WARN: mariadbHost is missing but other DB fields present"),
      ("mariadbPort", "WARN: mariadbPort is missing but other DB fields present"),
      ("mariadbUser", "WARN: mariadbUser is missing but other DB fields present"),
      ("mariadbPassword", "WARN: mariadbPassword is missing but other DB fields present"),
      ("mariadbDatabase", "WARN: mariadbDatabase is missing but other DB fields present")] :
        List (String × String)) →
    (msg ∈ validateRequiredParams c st ↔
      ((truthy (normalizeDeploymentConfig c.deployment "mariadbHost") ||
        truthy (normalizeDeploymentConfig c.deployment "mariadbPort") ||
        truthy (normalizeDeploymentConfig c.deployment "mariadbUser")) = true ∧
        truthy (normalizeDeploymentConfig c.deployment fld) = false)) := by
  intro fld msg hmem
  simp only [List.mem_cons, List.not_mem_nil, or_false, Prod.mk.injEq] at hmem
  obtain ⟨rfl, rfl⟩ | ⟨rfl, rfl⟩ | ⟨rfl, rfl⟩ | ⟨rfl, rfl⟩ | ⟨rfl, rfl⟩ := hmem <;>
    (constructor
     · intro h
       rcases mem_validateRequiredParams_cases h with ⟨_, he⟩ | ⟨_, hAg⟩ | hDep
       · exact absurd he (by decide)
       · rcases mem_extractorAgentWarns_cases hAg with ⟨hG, hmw⟩ | ⟨_, hmod⟩
         · rcases mem_extractorMariadbWarns_cases hmw with
             ⟨hc, he⟩ | ⟨hc, he⟩ | ⟨hc, he⟩ | ⟨hc, he⟩ | ⟨hc, he⟩ <;>
             first
             | exact ⟨hG, hc⟩
             | exact absurd he (by decide)
         · rcases mem_extractorModeWarns_cases hmod with
             ⟨_, he⟩ | ⟨_, _, he⟩ | ⟨_, _, _, he⟩ | ⟨_, _, he⟩
           · exact absurd he.symm (string_append_ne _ (by decide))
           · exact absurd he (by decide)
           · exact absurd he (by decide)
           · exact absurd he (by decide)
       · obtain ⟨f, _, _, he⟩ := mem_extractorDeprecatedWarns_cases hDep
         exact absurd he.symm (string_append_ne _ (by decide))
     · rintro ⟨hG, hc⟩
       refine extractorAgentWarns_sub hA (extractorMariadbWarns_sub hG ?_)
       simp [extractorMariadbWarns, hc])

theorem W_local_iff {c : Component} {st : String} (hA : c.componentType = "AGENT") :
    "WARN: localDatabaseUrl is required for LOCAL usage mode" ∈ validateRequiredParams c st ↔
      (normalizeDeploymentConfig c.deployment "databaseUsageMode" = some (.str "LOCAL") ∧
        truthy (normalizeDeploymentConfig c.deployment "localDatabaseUrl") = false) := by
  constructor
  · intro h
    rcases mem_validateRequiredParams_cases h with ⟨_, he⟩ | ⟨_, hAg⟩ | hDep
    · exact absurd he (by decide)
    · rcases mem_extractorAgentWarns_cases hAg with ⟨_, hmw⟩ | ⟨_, hmod⟩
      · rcases mem_extractorMariadbWarns_cases hmw with
          ⟨_, he⟩ | ⟨_, he⟩ | ⟨_, he⟩ | ⟨_, he⟩ | ⟨_, he⟩ <;> exact absurd he (by decide)
      · rcases mem_extractorModeWarns_cases hmod with
          ⟨_, he⟩ | ⟨hm, hc, he⟩ | ⟨_, _, _, he⟩ | ⟨_, _, he⟩
        · exact absurd he.symm (string_append_ne _ (by decide))
        · exact ⟨hm, hc⟩
        · exact absurd he (by decide)
        · exact absurd he (by decide)
    · obtain ⟨f, _, _, he⟩ := mem_extractorDeprecatedWarns_cases hDep
      exact absurd he.symm (string_append_ne _ (by decide))
  · rintro ⟨h1, h2⟩
    refine extractorAgentWarns_sub hA (extractorModeWarns_sub (by rw [h1]; decide) ?_)
    simp [extractorModeWarns, modeIncluded, h1, h2]

theorem W_shared_iff {c : Component} {st : String} (hA : c.componentType = "AGENT") :
    "WARN: For SHARED usage mode, provide sharedDatabaseDeploymentKey OR provide direct MariaDB connection fields (mariadbHost/mariadbPort/mariadbUser/mariadbDatabase)" ∈
        validateRequiredParams c st ↔
      (normalizeDeploymentConfig c.deployment "databaseUsageMode" = some (.str "SHARED") ∧
        truthy (normalizeDeploymentConfig c.deployment "sharedDatabaseDeploymentKey") = false ∧
        hasDirectMariadbConnection (normalizeDeploymentConfig c.deployment) = false) := by
  constructor
  · intro h
    rcases mem_validateRequiredParams_cases h with ⟨_, he⟩ | ⟨_, hAg⟩ | hDep
    · exact absurd he (by decide)
    · rcases mem_extractorAgentWarns_cases hAg with ⟨_, hmw⟩ | ⟨_, hmod⟩
      · rcases mem_extractorMariadbWarns_cases hmw with
          ⟨_, he⟩ | ⟨_, he⟩ | ⟨_, he⟩ | ⟨_, he⟩ | ⟨_, he⟩ <;> exact absurd he (by decide)
      · rcases mem_extractorModeWarns_cases hmod with
          ⟨_, he⟩ | ⟨_, _, he⟩ | ⟨hm, hk, hd, he⟩ | ⟨_, _, he⟩
        · exact absurd he.symm (string_append_ne _ (by decide))
        · exact absurd he (by decide)
        · exact ⟨hm, hk, hd⟩
        · exact absurd he (by decide)
    · obtain ⟨f, _, _, he⟩ := mem_extractorDeprecatedWarns_cases hDep
      exact absurd he.symm (string_append_ne _ (by decide))
  · rintro ⟨h1, h2, h3⟩
    refine extractorAgentWarns_sub hA (extractorModeWarns_sub (by rw [h1]; decide) ?_)
    simp [extractorModeWarns, modeIncluded, h1, h2, h3]

theorem W_none_iff {c : Component} {st : String} (hA : c.componentType = "AGENT") :
    "WARN: Database fields present but usage mode is NONE" ∈ validateRequiredParams c st ↔
      (normalizeDeploymentConfig c.deployment "databaseUsageMode" = some (.str "NONE") ∧
        (truthy (normalizeDeploymentConfig c.deployment "localDatabaseUrl") ||
          truthy (normalizeDeploymentConfig c.deployment "sharedDatabaseDeploymentKey") ||
          truthy (normalizeDeploymentConfig c.deployment "mariadbHost") ||
          truthy (normalizeDeploymentConfig c.deployment "mariadbPort") ||
          truthy (normalizeDeploymentConfig c.deployment "mariadbUser") ||
          truthy (normalizeDeploymentConfig c.deployment "mariadbPassword") ||
          truthy (normalizeDeploymentConfig c.deployment "mariadbDatabase")) = true) := by
  constructor
  · intro h
    rcases mem_validateRequiredParams_cases h with ⟨_, he⟩ | ⟨_, hAg⟩ | hDep
    · exact absurd he (by decide)
    · rcases mem_extractorAgentWarns_cases hAg with ⟨_, hmw⟩ | ⟨_, hmod⟩
      · rcases mem_extractorMariadbWarns_cases hmw with
          ⟨_, he⟩ | ⟨_, he⟩ | ⟨_, he⟩ | ⟨_, he⟩ | ⟨_, he⟩ <;> exact absurd he (by decide)
      · rcases mem_extractorModeWarns_cases hmod with
          ⟨_, he⟩ | ⟨_, _, he⟩ | ⟨_, _, _, he⟩ | ⟨hm, hdb, he⟩
        · exact absurd he.symm (string_append_ne _ (by decide))
        · exact absurd he (by decide)
        · exact absurd he (by decide)
        · exact ⟨hm, hdb⟩
    · obtain ⟨f, _, _, he⟩ := mem_extractorDeprecatedWarns_cases hDep
      exact absurd he.symm (string_append_ne _ (by decide))
  · rintro ⟨h1, h2⟩
    refine extractorAgentWarns_sub hA (extractorModeWarns_sub (by rw [h1]; decide) ?_)
    simp [extractorModeWarns, modeIncluded, h1, h2]

theorem W_invalid_iff {c : Component} {st : String} (hA : c.componentType = "AGENT")
    (v : JValue)
    (h : normalizeDeploymentConfig c.deployment "databaseUsageMode" = some v) :
    invalidModeWarn (some v) ∈ validateRequiredParams c st ↔
      (truthy (some v) = true ∧ modeIncluded (some v) = false) := by
  constructor
  · intro hw
    rcases mem_validateRequiredParams_cases hw with ⟨_, he⟩ | ⟨_, hAg⟩ | hDep
    · exact absurd he (string_append_ne _ (by decide))
    · rcases mem_extractorAgentWarns_cases hAg with ⟨_, hmw⟩ | ⟨hMode, hmod⟩
      · rcases mem_extractorMariadbWarns_cases hmw with
          ⟨_, he⟩ | ⟨_, he⟩ | ⟨_, he⟩ | ⟨_, he⟩ | ⟨_, he⟩ <;>
          exact absurd he (string_append_ne _ (by decide))
      · rcases mem_extractorModeWarns_cases hmod with
          ⟨hc, _⟩ | ⟨_, _, he⟩ | ⟨_, _, _, he⟩ | ⟨_, _, he⟩
        · rw [h] at hMode hc
          exact ⟨hMode, hc⟩
        · exact absurd he (string_append_ne _ (by decide))
        · exact absurd he (string_append_ne _ (by decide))
        · exact absurd he (string_append_ne _ (by decide))
    · obtain ⟨f, _, _, he⟩ := mem_extractorDeprecatedWarns_cases hDep
      exact absurd he (Ne.symm (append_ne_append _ _ (by decide) (by decide)))
  · rintro ⟨hMode, hInc⟩
    refine extractorAgentWarns_sub hA (extractorModeWarns_sub (by rw [h]; exact hMode) ?_)
    simp [extractorModeWarns, h, hInc]

theorem W_dep_iff {c : Component} {st : String} (f : String)
    (hf : f ∈ extractorDeprecatedFields) :
    extractorDepWarn f ∈ validateRequiredParams c st ↔
      (normalizeDeploymentConfig c.deployment f).isSome = true := by
  constructor
  · intro hw
    rcases mem_validateRequiredParams_cases hw with ⟨_, he⟩ | ⟨_, hAg⟩ | hDep
    · exact absurd he (string_append_ne _ (by decide))
    · rcases mem_extractorAgentWarns_cases hAg with ⟨_, hmw⟩ | ⟨_, hmod⟩
      · rcases mem_extractorMariadbWarns_cases hmw with
          ⟨_, he⟩ | ⟨_, he⟩ | ⟨_, he⟩ | ⟨_, he⟩ | ⟨_, he⟩ <;>
          exact absurd he (string_append_ne _ (by decide))
      · rcases mem_extractorModeWarns_cases hmod with
          ⟨_, he⟩ | ⟨_, _, he⟩ | ⟨_, _, _, he⟩ | ⟨_, _, he⟩
        · exact absurd he (append_ne_append _ _ (by decide) (by decide))
        · exact absurd he (string_append_ne _ (by decide))
        · exact absurd he (string_append_ne _ (by decide))
        · exact absurd he (string_append_ne _ (by decide))
    · obtain ⟨g, hg, hcond, he⟩ := mem_extractorDeprecatedWarns_cases hDep
      rw [extractorDepWarn_inj he]
      exact hcond
  · intro hcond
    refine extractorDeprecatedWarns_sub ?_
    simp only [extractorDeprecatedWarns, List.mem_flatMap]
    exact ⟨f, hf, by simp [hcond]⟩

theorem W_dep_notMem {c : Component} {st : String} (f : String)
    (hf : f ∉ extractorDeprecatedFields) :
    extractorDepWarn f ∉ validateRequiredParams c st := by
  intro hw
  rcases mem_validateRequiredParams_cases hw with ⟨_, he⟩ | ⟨_, hAg⟩ | hDep
  · exact absurd he (string_append_ne _ (by decide))
  · rcases mem_extractorAgentWarns_cases hAg with ⟨_, hmw⟩ | ⟨_, hmod⟩
    · rcases mem_extractorMariadbWarns_cases hmw with
        ⟨_, he⟩ | ⟨_, he⟩ | ⟨_, he⟩ | ⟨_, he⟩ | ⟨_, he⟩ <;>
        exact absurd he (string_append_ne _ (by decide))
    · rcases mem_extractorModeWarns_cases hmod with
        ⟨_, he⟩ | ⟨_, _, he⟩ | ⟨_, _, _, he⟩ | ⟨_, _, he⟩
      · exact absurd he (append_ne_append _ _ (by decide) (by decide))
      · exact absurd he (string_append_ne _ (by decide))
      · exact absurd he (string_append_ne _ (by decide))
      · exact absurd he (string_append_ne _ (by decide))
  · obtain ⟨g, hg, _, he⟩ := mem_extractorDeprecatedWarns_cases hDep
    rw [extractorDepWarn_inj he] at hf
    exact hf hg

theorem mem_deprecatedIssues_full {i : ValidationIssue} {depPath : String}
    {dep : DeploymentConfig} (h : i ∈ deprecatedIssues depPath dep) :
    ∃ q ∈ deprecatedTable, (dep q.1).isSome = true ∧
      i = ⟨.warning, depPath ++ "." ++ q.1, "Deprecated field. " ++ q.2⟩ := by
  simp only [deprecatedIssues, List.mem_flatMap] at h
  obtain ⟨q, hq, hi⟩ := h
  rw [mem_iteSingle] at hi
  exact ⟨q, hq, hi.1, hi.2⟩

theorem deprecatedIssues_sub {i : ValidationIssue} {compPath : String} {c : Component}
    (h : i ∈ deprecatedIssues (compPath ++ ".deployment") c.deployment) :
    i ∈ validateComponent compPath c := by
  simp only [validateComponent, List.mem_append]
  tauto

theorem V_port_iff {compPath : String} {c : Component}
    (hA : c.componentType = "AGENT") :
    (⟨.error, compPath ++ ".deployment" ++ ".port",
      "Missing required field: port"⟩ : ValidationIssue) ∈ validateComponent compPath c ↔
      truthy (normalizeDeploymentConfig c.deployment "port") = false := by
  constructor
  · intro h
    rcases mem_validateComponent_cases h with h | h | h | h | h
    · rw [mem_iteSingle] at h
      exact absurd (congrArg ValidationIssue.message h.2) (by simp)
    · have hmem := (mem_legacyFieldIssues h).2
      simp [legacyMessages, legacyFields] at hmem
    · have hmem := (mem_deprecatedIssues h).2
      simp [deprecatedMessages, deprecatedTable] at hmem
    · rw [hA, if_pos rfl] at h
      rcases mem_agentIssues_cases h with ⟨hc, _⟩ | ⟨_, hm⟩ | ⟨_, hm⟩
      · exact hc
      · rcases mem_modeIssues_cases hm with
          ⟨_, he⟩ | ⟨_, _, he⟩ | ⟨_, _, _, he⟩ | ⟨_, _, he⟩ <;>
          exact absurd (congrArg ValidationIssue.message he)
            (by simp [sharedModeMessage, noneModeMessage])
      · rcases mem_mariadbIssues_cases hm with
          ⟨_, he⟩ | ⟨_, he⟩ | ⟨_, he⟩ | ⟨_, he⟩ | ⟨_, he⟩ <;>
          exact absurd (congrArg ValidationIssue.message he) (by simp)
    · rw [hA] at h
      simp at h
  · intro hc
    refine agentIssues_sub hA ?_
    simp [agentIssues, hc]

theorem V_mariadb_iff {compPath : String} {c : Component}
    (hA : c.componentType = "AGENT") :
    ∀ fld sev pathPart msg, (fld, sev, pathPart, msg) ∈ ([
      ("mariadbHost", Severity.error, ".mariadbHost",
        "mariadbHost required when using MariaDB"),
      ("mariadbPort", Severity.error, ".mariadbPort",
        "mariadbPort required when using MariaDB"),
      ("mariadbUser", Severity.error, ".mariadbUser",
        "mariadbUser required when using MariaDB"),
      ("mariadbPassword", Severity.warning, ".mariadbPassword",
        "mariadbPassword not set (may be intentional for testing)"),
      ("mariadbDatabase", Severity.error, ".mariadbDatabase",
        "mariadbDatabase required when using MariaDB")] :
        List (String × Severity × String × String)) →
    ((⟨sev, compPath ++ ".deployment" ++ pathPart, msg⟩ : ValidationIssue) ∈
        validateComponent compPath c ↔
      ((truthy (normalizeDeploymentConfig c.deployment "mariadbHost") ||
        truthy (normalizeDeploymentConfig c.deployment "mariadbPort") ||
        truthy (normalizeDeploymentConfig c.deployment "mariadbUser")) = true ∧
        truthy (normalizeDeploymentConfig c.deployment fld) = false)) := by
  intro fld sev pathPart msg hmem
  simp only [List.mem_cons, List.not_mem_nil, or_false, Prod.mk.injEq] at hmem
  obtain ⟨rfl, rfl, rfl, rfl⟩ | ⟨rfl, rfl, rfl, rfl⟩ | ⟨rfl, rfl, rfl, rfl⟩ |
    ⟨rfl, rfl, rfl, rfl⟩ | ⟨rfl, rfl, rfl, rfl⟩ := hmem <;>
    (constructor
     · intro h
       rcases mem_validateComponent_cases h with h | h | h | h | h
       · rw [mem_iteSingle] at h
         exact absurd (congrArg ValidationIssue.message h.2) (by simp)
       · have hmem2 := (mem_legacyFieldIssues h).2
         simp [legacyMessages, legacyFields] at hmem2
       · have hmem2 := (mem_deprecatedIssues h).2
         simp [deprecatedMessages, deprecatedTable] at hmem2
       · rw [hA, if_pos rfl] at h
         rcases mem_agentIssues_cases h with ⟨_, he⟩ | ⟨_, hm⟩ | ⟨hG, hm⟩
         · exact absurd (congrArg ValidationIssue.message he) (by simp)
         · rcases mem_modeIssues_cases hm with
             ⟨_, he⟩ | ⟨_, _, he⟩ | ⟨_, _, _, he⟩ | ⟨_, _, he⟩ <;>
             exact absurd (congrArg ValidationIssue.message he)
               (by simp [sharedModeMessage, noneModeMessage])
         · rcases mem_mariadbIssues_cases hm with
             ⟨hc, he⟩ | ⟨hc, he⟩ | ⟨hc, he⟩ | ⟨hc, he⟩ | ⟨hc, he⟩ <;>
             first
             | exact ⟨hG, hc⟩
             | exact absurd (congrArg ValidationIssue.message he) (by simp)
       · rw [hA] at h
         simp at h
     · rintro ⟨hG, hc⟩
       refine agentIssues_sub hA (mariadbIssues_sub hG ?_)
       simp [mariadbIssues, hc])

theorem V_local_iff {compPath : String} {c : Component}
    (hA : c.componentType = "AGENT") :
    (⟨.error, compPath ++ ".deployment" ++ ".localDatabaseUrl",
      "localDatabaseUrl is required for LOCAL usage mode"⟩ : ValidationIssue) ∈
        validateComponent compPath c ↔
      (normalizeDeploymentConfig c.deployment "databaseUsageMode" = some (.str "LOCAL") ∧
        truthy (normalizeDeploymentConfig c.deployment "localDatabaseUrl") = false) := by
  constructor
  · intro h
    rcases mem_validateComponent_cases h with h | h | h | h | h
    · rw [mem_iteSingle] at h
      exact absurd (congrArg ValidationIssue.message h.2) (by simp)
    · have hmem := (mem_legacyFieldIssues h).2
      simp [legacyMessages, legacyFields] at hmem
    · have hmem := (mem_deprecatedIssues h).2
      simp [deprecatedMessages, deprecatedTable] at hmem
    · rw [hA, if_pos rfl] at h
      rcases mem_agentIssues_cases h with ⟨_, he⟩ | ⟨_, hm⟩ | ⟨_, hm⟩
      · exact absurd (congrArg ValidationIssue.message he) (by simp)
      · rcases mem_modeIssues_cases hm with
          ⟨_, he⟩ | ⟨hm1, hm2, he⟩ | ⟨_, _, _, he⟩ | ⟨_, _, he⟩
        · exact absurd (congrArg ValidationIssue.message he) (by simp)
        · exact ⟨hm1, hm2⟩
        · exact absurd (congrArg ValidationIssue.message he) (by simp [sharedModeMessage])
        · exact absurd (congrArg ValidationIssue.message he) (by simp)
      · rcases mem_mariadbIssues_cases hm with
          ⟨_, he⟩ | ⟨_, he⟩ | ⟨_, he⟩ | ⟨_, he⟩ | ⟨_, he⟩ <;>
          exact absurd (congrArg ValidationIssue.message he) (by simp)
    · rw [hA] at h
      simp at h
  · rintro ⟨h1, h2⟩
    refine agentIssues_sub hA (modeIssues_sub (by rw [h1]; decide) ?_)
    simp [modeIssues, modeIncluded, h1, h2]

theorem V_shared_iff {compPath : String} {c : Component}
    (hA : c.componentType = "AGENT") :
    (⟨.error, compPath ++ ".deployment" ++ ".sharedDatabaseDeploymentKey",
      sharedModeMessage⟩ : ValidationIssue) ∈ validateComponent compPath c ↔
      (normalizeDeploymentConfig c.deployment "databaseUsageMode" = some (.str "SHARED") ∧
        truthy (normalizeDeploymentConfig c.deployment "sharedDatabaseDeploymentKey") = false ∧
        hasDirectMariadbConnection (normalizeDeploymentConfig c.deployment) = false) := by
  constructor
  · intro h
    rcases mem_validateComponent_cases h with h | h | h | h | h
    · rw [mem_iteSingle] at h
      exact absurd (congrArg ValidationIssue.message h.2) (by simp [sharedModeMessage])
    · have hmem := (mem_legacyFieldIssues h).2
      simp [legacyMessages, legacyFields, sharedModeMessage] at hmem
    · have hmem := (mem_deprecatedIssues h).2
      simp [deprecatedMessages, deprecatedTable, sharedModeMessage] at hmem
    · rw [hA, if_pos rfl] at h
      rcases mem_agentIssues_cases h with ⟨_, he⟩ | ⟨_, hm⟩ | ⟨_, hm⟩
      · exact absurd (congrArg ValidationIssue.message he) (by simp [sharedModeMessage])
      · rcases mem_modeIssues_cases hm with
          ⟨_, he⟩ | ⟨_, _, he⟩ | ⟨hm1, hm2, hm3, he⟩ | ⟨_, _, he⟩
        · exact absurd (congrArg ValidationIssue.message he) (by simp [sharedModeMessage])
        · exact absurd (congrArg ValidationIssue.message he) (by simp [sharedModeMessage])
        · exact ⟨hm1, hm2, hm3⟩
        · exact absurd (congrArg ValidationIssue.message he)
            (by simp [sharedModeMessage, noneModeMessage])
      · rcases mem_mariadbIssues_cases hm with
          ⟨_, he⟩ | ⟨_, he⟩ | ⟨_, he⟩ | ⟨_, he⟩ | ⟨_, he⟩ <;>
          exact absurd (congrArg ValidationIssue.message he) (by simp [sharedModeMessage])
    · rw [hA] at h
      simp at h
  · rintro ⟨h1, h2, h3⟩
    refine agentIssues_sub hA (modeIssues_sub (by rw [h1]; decide) ?_)
    simp [modeIssues, modeIncluded, sharedModeMessage, h1, h2, h3]

theorem V_none_iff {compPath : String} {c : Component}
    (hA : c.componentType = "AGENT") :
    (⟨.warning, compPath ++ ".deployment", noneModeMessage⟩ : ValidationIssue) ∈
        validateComponent compPath c ↔
      (normalizeDeploymentConfig c.deployment "databaseUsageMode" = some (.str "NONE") ∧
        (truthy (normalizeDeploymentConfig c.deployment "localDatabaseUrl") ||
          truthy (normalizeDeploymentConfig c.deployment "sharedDatabaseDeploymentKey")) = true) := by
  constructor
  · intro h
    rcases mem_validateComponent_cases h with h | h | h | h | h
    · rw [mem_iteSingle] at h
      exact absurd (congrArg ValidationIssue.message h.2) (by simp [noneModeMessage])
    · have hmem := (mem_legacyFieldIssues h).2
      simp [legacyMessages, legacyFields, noneModeMessage] at hmem
    · have hmem := (mem_deprecatedIssues h).2
      simp [deprecatedMessages, deprecatedTable, noneModeMessage] at hmem
    · rw [hA, if_pos rfl] at h
      rcases mem_agentIssues_cases h with ⟨_, he⟩ | ⟨_, hm⟩ | ⟨_, hm⟩
      · exact absurd (congrArg ValidationIssue.message he) (by simp [noneModeMessage])
      · rcases mem_modeIssues_cases hm with
          ⟨_, he⟩ | ⟨_, _, he⟩ | ⟨_, _, _, he⟩ | ⟨hm1, hm2, he⟩
        · exact absurd (congrArg ValidationIssue.message he) (by simp [noneModeMessage])
        · exact absurd (congrArg ValidationIssue.message he) (by simp [noneModeMessage])
        · exact absurd (congrArg ValidationIssue.message he)
            (by simp [noneModeMessage, sharedModeMessage])
        · exact ⟨hm1, hm2⟩
      · rcases mem_mariadbIssues_cases hm with
          ⟨_, he⟩ | ⟨_, he⟩ | ⟨_, he⟩ | ⟨_, he⟩ | ⟨_, he⟩ <;>
          exact absurd (congrArg ValidationIssue.message he) (by simp [noneModeMessage])
    · rw [hA] at h
      simp at h
  · rintro ⟨h1, h2⟩
    refine agentIssues_sub hA (modeIssues_sub (by rw [h1]; decide) ?_)
    simp [modeIssues, modeIncluded, noneModeMessage, h1, h2]

theorem V_invalid_iff {compPath : String} {c : Component}
    (hA : c.componentType = "AGENT") (v : JValue)
    (hv : normalizeDeploymentConfig c.deployment "databaseUsageMode" = some v) :
    (⟨.error, compPath ++ ".deployment" ++ ".databaseUsageMode",
      "Invalid databaseUsageMode. Must be LOCAL, SHARED, or NONE"⟩ : ValidationIssue) ∈
        validateComponent compPath c ↔
      (truthy (some v) = true ∧ modeIncluded (some v) = false) := by
  constructor
  · intro h
    rcases mem_validateComponent_cases h with h | h | h | h | h
    · rw [mem_iteSingle] at h
      exact absurd (congrArg ValidationIssue.message h.2) (by simp)
    · have hmem := (mem_legacyFieldIssues h).2
      simp [legacyMessages, legacyFields] at hmem
    · have hmem := (mem_deprecatedIssues h).2
      simp [deprecatedMessages, deprecatedTable] at hmem
    · rw [hA, if_pos rfl] at h
      rcases mem_agentIssues_cases h with ⟨_, he⟩ | ⟨hMode, hm⟩ | ⟨_, hm⟩
      · exact absurd (congrArg ValidationIssue.message he) (by simp)
      · rcases mem_modeIssues_cases hm with
          ⟨hc, _⟩ | ⟨_, _, he⟩ | ⟨_, _, _, he⟩ | ⟨_, _, he⟩
        · rw [hv] at hMode hc
          exact ⟨hMode, hc⟩
        · exact absurd (congrArg ValidationIssue.message he) (by simp)
        · exact absurd (congrArg ValidationIssue.message he) (by simp [sharedModeMessage])
        · exact absurd (congrArg ValidationIssue.message he) (by simp)
      · rcases mem_mariadbIssues_cases hm with
          ⟨_, he⟩ | ⟨_, he⟩ | ⟨_, he⟩ | ⟨_, he⟩ | ⟨_, he⟩ <;>
          exact absurd (congrArg ValidationIssue.message he) (by simp)
    · rw [hA] at h
      simp at h
  · rintro ⟨hMode, hInc⟩
    refine agentIssues_sub hA (modeIssues_sub (by rw [hv]; exact hMode) ?_)
    simp [modeIssues, hv, hInc]

theorem V_dep_iff {compPath : String} {c : Component}
    (hA : c.componentType = "AGENT") (p : String × String)
    (hp : p ∈ deprecatedTable) :
    (⟨.warning, compPath ++ ".deployment" ++ "." ++ p.1,
      "Deprecated field. " ++ p.2⟩ : ValidationIssue) ∈ validateComponent compPath c ↔
      (c.deployment p.1).isSome = true := by
  constructor
  · intro h
    rcases mem_validateComponent_cases h with h | h | h | h | h
    · rw [mem_iteSingle] at h
      exact absurd (congrArg ValidationIssue.severity h.2) (by simp)
    · have hmem := (mem_legacyFieldIssues h).2
      simp only [legacyMessages, legacyFields, List.map_cons, List.map_nil,
        List.mem_cons, List.not_mem_nil, or_false] at hmem
      rcases hmem with hm | hm | hm | hm | hm <;>
        exact absurd hm (string_append_ne _ (by decide))
    · obtain ⟨q, hq, hcond, he⟩ := mem_deprecatedIssues_full h
      have hpath : compPath ++ ".deployment" ++ "." ++ p.1 =
          compPath ++ ".deployment" ++ "." ++ q.1 :=
        congrArg ValidationIssue.path he
      have h1 : p.1 = q.1 := string_append_left_cancel hpath
      rw [h1]
      exact hcond
    · rw [hA, if_pos rfl] at h
      rcases mem_agentIssues_cases h with ⟨_, he⟩ | ⟨_, hm⟩ | ⟨_, hm⟩
      · have hmsg : "Deprecated field. " ++ p.2 = "Missing required field: port" :=
          congrArg ValidationIssue.message he
        exact absurd hmsg (string_append_ne _ (by decide))
      · rcases mem_modeIssues_cases hm with
          ⟨_, he⟩ | ⟨_, _, he⟩ | ⟨_, _, _, he⟩ | ⟨_, _, he⟩
        · have hmsg : "Deprecated field. " ++ p.2 =
              "Invalid databaseUsageMode. Must be LOCAL, SHARED, or NONE" :=
            congrArg ValidationIssue.message he
          exact absurd hmsg (string_append_ne _ (by decide))
        · have hmsg : "Deprecated field. " ++ p.2 =
              "localDatabaseUrl is required for LOCAL usage mode" :=
            congrArg ValidationIssue.message he
          exact absurd hmsg (string_append_ne _ (by decide))
        · have hmsg : "Deprecated field. " ++ p.2 = sharedModeMessage :=
            congrArg ValidationIssue.message he
          exact absurd hmsg (string_append_ne _ (by decide))
        · have hmsg : "Deprecated field. " ++ p.2 =
              "Database fields present but usage mode is NONE" :=
            congrArg ValidationIssue.message he
          exact absurd hmsg (string_append_ne _ (by decide))
      · rcases mem_mariadbIssues_cases hm with
          ⟨_, he⟩ | ⟨_, he⟩ | ⟨_, he⟩ | ⟨_, he⟩ | ⟨_, he⟩
        · have hmsg : "Deprecated field. " ++ p.2 =
              "mariadbHost required when using MariaDB" :=
            congrArg ValidationIssue.message he
          exact absurd hmsg (string_append_ne _ (by decide))
        · have hmsg : "Deprecated field. " ++ p.2 =
              "mariadbPort required when using MariaDB" :=
            congrArg ValidationIssue.message he
          exact absurd hmsg (string_append_ne _ (by decide))
        · have hmsg : "Deprecated field. " ++ p.2 =
              "mariadbUser required when using MariaDB" :=
            congrArg ValidationIssue.message he
          exact absurd hmsg (string_append_ne _ (by decide))
        · have hmsg : "Deprecated field. " ++ p.2 =
              "mariadbPassword not set (may be intentional for testing)" :=
            congrArg ValidationIssue.message he
          exact absurd hmsg (string_append_ne _ (by decide))
        · have hmsg : "Deprecated field. " ++ p.2 =
              "mariadbDatabase required when using MariaDB" :=
            congrArg ValidationIssue.message he
          exact absurd hmsg (string_append_ne _ (by decide))
    · rw [hA] at h
      simp at h
  · intro hcond
    refine deprecatedIssues_sub ?_
    simp only [deprecatedIssues, List.mem_flatMap]
    exact ⟨p, hp, by simp [hcond]⟩

/-- C9 (amended): for every AGENT component, the Extractor's
`validateRequiredParams` and the Validator's per-component rules agree,
finding for finding, on the port requirement, on all five MariaDB
field-completeness findings, on the LOCAL, SHARED and invalid
`databaseUsageMode` findings, and on the twelve deprecated fields both
sides know — but they diverge in exactly two places: the NONE-mode
inconsistency finding fires in the Extractor for any of seven database
fields while the Validator only checks the local URL and shared key (so the
Validator's finding implies the Extractor's, not conversely), and the
Validator alone detects the deprecated fields `iamApiUrl` and `apiUrl`.
(The Extractor reports all findings as warning strings, while the Validator
grades several of them as errors.) -/
theorem C9_amended (compPath st : String) (c : Component)
    (hA : c.componentType = "AGENT") :
    ("WARN: Missing required parameter: deployment.port" ∈ validateRequiredParams c st ↔
      (⟨.error, compPath ++ ".deployment" ++ ".port",
        "Missing required field: port"⟩ : ValidationIssue) ∈ validateComponent compPath c) ∧
    (∀ fld wmsg sev pathPart vmsg,
      (fld, wmsg, sev, pathPart, vmsg) ∈ ([
        ("mariadbHost", "WARN: mariadbHost is missing but other DB fields present",
          Severity.error, ".mariadbHost", "mariadbHost required when using MariaDB"),
        ("mariadbPort", "WARN: mariadbPort is missing but other DB fields present",
          Severity.error, ".mariadbPort", "mariadbPort required when using MariaDB"),
        ("mariadbUser", "WARN: mariadbUser is missing but other DB fields present",
          Severity.error, ".mariadbUser", "mariadbUser required when using MariaDB"),
        ("mariadbPassword", "WARN: mariadbPassword is missing but other DB fields present",
          Severity.warning, ".mariadbPassword",
          "mariadbPassword not set (may be intentional for testing)"),
        ("mariadbDatabase", "WARN: mariadbDatabase is missing but other DB fields present",
          Severity.error, ".mariadbDatabase", "mariadbDatabase required when using MariaDB")] :
          List (String × String × Severity × String × String)) →
      (wmsg ∈ validateRequiredParams c st ↔
        (⟨sev, compPath ++ ".deployment" ++ pathPart, vmsg⟩ : ValidationIssue) ∈
          validateComponent compPath c)) ∧
    ("WARN: localDatabaseUrl is required for LOCAL usage mode" ∈
        validateRequiredParams c st ↔
      (⟨.error, compPath ++ ".deployment" ++ ".localDatabaseUrl",
        "localDatabaseUrl is required for LOCAL usage mode"⟩ : ValidationIssue) ∈
        validateComponent compPath c) ∧
    ("WARN: For SHARED usage mode, provide sharedDatabaseDeploymentKey OR provide direct MariaDB connection fields (mariadbHost/mariadbPort/mariadbUser/mariadbDatabase)" ∈
        validateRequiredParams c st ↔
      (⟨.error, compPath ++ ".deployment" ++ ".sharedDatabaseDeploymentKey",
        sharedModeMessage⟩ : ValidationIssue) ∈ validateComponent compPath c) ∧
    (∀ v : JValue,
      normalizeDeploymentConfig c.deployment "databaseUsageMode" = some v →
      (invalidModeWarn (some v) ∈ validateRequiredParams c st ↔
        (⟨.error, compPath ++ ".deployment" ++ ".databaseUsageMode",
          "Invalid databaseUsageMode. Must be LOCAL, SHARED, or NONE"⟩ : ValidationIssue) ∈
          validateComponent compPath c)) ∧
    (("WARN: Database fields present but usage mode is NONE" ∈
        validateRequiredParams c st ↔
      (normalizeDeploymentConfig c.deployment "databaseUsageMode" = some (.str "NONE") ∧
        (truthy (normalizeDeploymentConfig c.deployment "localDatabaseUrl") ||
          truthy (normalizeDeploymentConfig c.deployment "sharedDatabaseDeploymentKey") ||
          truthy (normalizeDeploymentConfig c.deployment "mariadbHost") ||
          truthy (normalizeDeploymentConfig c.deployment "mariadbPort") ||
          truthy (normalizeDeploymentConfig c.deployment "mariadbUser") ||
          truthy (normalizeDeploymentConfig c.deployment "mariadbPassword") ||
          truthy (normalizeDeploymentConfig c.deployment "mariadbDatabase")) = true)) ∧
     ((⟨.warning, compPath ++ ".deployment", noneModeMessage⟩ : ValidationIssue) ∈
        validateComponent compPath c ↔
      (normalizeDeploymentConfig c.deployment "databaseUsageMode" = some (.str "NONE") ∧
        (truthy (normalizeDeploymentConfig c.deployment "localDatabaseUrl") ||
          truthy (normalizeDeploymentConfig c.deployment "sharedDatabaseDeploymentKey")) = true)) ∧
     ((⟨.warning, compPath ++ ".deployment", noneModeMessage⟩ : ValidationIssue) ∈
        validateComponent compPath c →
      "WARN: Database fields present but usage mode is NONE" ∈
        validateRequiredParams c st)) ∧
    (∀ p ∈ deprecatedTable, p.1 ∈ extractorDeprecatedFields →
      ((extractorDepWarn p.1 ∈ validateRequiredParams c st ↔
        (c.deployment p.1).isSome = true) ∧
       ((⟨.warning, compPath ++ ".deployment" ++ "." ++ p.1,
          "Deprecated field. " ++ p.2⟩ : ValidationIssue) ∈ validateComponent compPath c ↔
        (c.deployment p.1).isSome = true))) ∧
    (∀ p ∈ deprecatedTable, p.1 = "iamApiUrl" ∨ p.1 = "apiUrl" →
      (((⟨.warning, compPath ++ ".deployment" ++ "." ++ p.1,
          "Deprecated field. " ++ p.2⟩ : ValidationIssue) ∈ validateComponent compPath c ↔
        (c.deployment p.1).isSome = true) ∧
       extractorDepWarn p.1 ∉ validateRequiredParams c st)) := by
  refine ⟨?_, ?_, ?_, ?_, ?_, ⟨?_, ?_, ?_⟩, ?_, ?_⟩
  · exact (W_port_iff hA).trans (V_port_iff hA).symm
  · intro fld wmsg sev pathPart vmsg hmem
    simp only [List.mem_cons, List.not_mem_nil, or_false, Prod.mk.injEq] at hmem
    obtain ⟨rfl, rfl, rfl, rfl, rfl⟩ | ⟨rfl, rfl, rfl, rfl, rfl⟩ |
      ⟨rfl, rfl, rfl, rfl, rfl⟩ | ⟨rfl, rfl, rfl, rfl, rfl⟩ |
      ⟨rfl, rfl, rfl, rfl, rfl⟩ := hmem
    · exact (W_mariadb_iff hA "mariadbHost" _ (by decide)).trans
        (V_mariadb_iff hA "mariadbHost" _ _ _ (by decide)).symm
    · exact (W_mariadb_iff hA "mariadbPort" _ (by decide)).trans
        (V_mariadb_iff hA "mariadbPort" _ _ _ (by decide)).symm
    · exact (W_mariadb_iff hA "mariadbUser" _ (by decide)).trans
        (V_mariadb_iff hA "mariadbUser" _ _ _ (by decide)).symm
    · exact (W_mariadb_iff hA "mariadbPassword" _ (by decide)).trans
        (V_mariadb_iff hA "mariadbPassword" _ _ _ (by decide)).symm
    · exact (W_mariadb_iff hA "mariadbDatabase" _ (by decide)).trans
        (V_mariadb_iff hA "mariadbDatabase" _ _ _ (by decide)).symm
  · exact (W_local_iff hA).trans (V_local_iff hA).symm
  · exact (W_shared_iff hA).trans (V_shared_iff hA).symm
  · intro v hv
    exact (W_invalid_iff hA v hv).trans (V_invalid_iff hA v hv).symm
  · exact W_none_iff hA
  · exact V_none_iff hA
  · intro h
    obtain ⟨h1, h2⟩ := (V_none_iff hA).mp h
    refine (W_none_iff hA).mpr ⟨h1, ?_⟩
    rcases Bool.or_eq_true_iff.mp h2 with h3 | h3 <;> simp [h3]
  · intro p hp hf
    have hnc : ∀ x ∈ extractorDeprecatedFields, x ∉ canonicalKeys := by decide
    constructor
    · rw [W_dep_iff p.1 hf, normalize_other c.deployment p.1 (hnc p.1 hf)]
    · exact V_dep_iff hA p hp
  · intro p hp hor
    refine ⟨V_dep_iff hA p hp, ?_⟩
    rcases hor with h | h <;> exact W_dep_notMem p.1 (by rw [h]; decide)

def c9WAgent : Component := ⟨"agent-9w", "AGENT", none, none, fun _ => none⟩

theorem C9_witness :
    "WARN: Missing required parameter: deployment.port" ∈
        validateRequiredParams c9WAgent "IAM" ↔
      (⟨.error, "p" ++ ".deployment" ++ ".port",
        "Missing required field: port"⟩ : ValidationIssue) ∈
        validateComponent "p" c9WAgent :=
  (C9_amended "p" "IAM" c9WAgent rfl).1
